import Mathlib

/-!
# Random-Restaurant-Picker: cache, fetch and pick logic of `script.js`

The module-level variables `cachedRestaurants` and `cachedLocation` and the two
`localStorage` keys form the state.  Every callback of the script runs to completion on the
single event thread, so each one is a function from the state before it to the state after
it, together with the outputs it emits.  What the browser, the geolocation provider and the
places service answer is data handed to these functions.
-/

namespace RestaurantPicker

/-! ## Data model -/

/-- A place returned by the nearby search: the three fields the script reads. -/
structure Restaurant where
  name : String
  vicinity : String
  rating : ℚ
  deriving DecidableEq

/-- A pair of degrees, `{ latitude, longitude }`, over a number type `F`. -/
structure Coordinate (F : Type) where
  latitude : F
  longitude : F
  deriving DecidableEq

/-- The two `localStorage` keys.  `JSON.parse (JSON.stringify v)` is read as `v`, so a key
holds the value itself, or nothing after `removeItem`. -/
structure Store (F : Type) where
  cachedRestaurants : Option (List Restaurant)
  cachedLocation : Option (Coordinate F)
  deriving DecidableEq

/-- The module-level variables of lines 7-8 together with `localStorage`. -/
structure State (F : Type) where
  cachedRestaurants : List Restaurant
  cachedLocation : Option (Coordinate F)
  localStorage : Store F
  deriving DecidableEq

/-- What a callback makes visible: the two display functions, `refreshPage`, `console.log`,
and the `TypeError` that `displayRestaurant(undefined)` raises. -/
inductive Output where
  | displayRestaurant (restaurant : Restaurant)
  | displayError (message : String)
  | refreshPage
  | log (message : String)
  | uncaughtTypeError
  deriving DecidableEq

/-- The answer of `navigator.geolocation`: the object is missing, the error callback fires,
or the success callback fires with `position.coords`. -/
inductive GeoOutcome (F : Type) where
  | unsupported
  | failed
  | position (coords : Coordinate F)
  deriving DecidableEq

/-- The status codes of `google.maps.places.PlacesServiceStatus`. -/
inductive PlacesServiceStatus where
  | OK
  | ZERO_RESULTS
  | INVALID_REQUEST
  | OVER_QUERY_LIMIT
  | REQUEST_DENIED
  | UNKNOWN_ERROR
  | NOT_FOUND
  deriving DecidableEq

/-- One invocation of the `handlePage` callback: `(results, status, pagination)`. -/
structure Page where
  status : PlacesServiceStatus
  results : List Restaurant
  hasNextPage : Bool
  deriving DecidableEq

/-- What the body of the `try` block meets: an exception with its message, or the pages the
places service delivers to `handlePage`, in order. -/
inductive SearchOutcome where
  | threw (message : String)
  | pages (delivered : List Page)
  deriving DecidableEq

/-- The environment of one call of `getLocationAndFetchRestaurants`. -/
structure FetchEnv (F : Type) where
  geo : GeoOutcome F
  search : SearchOutcome
  deriving DecidableEq

/-! ## Constants -/

/-- Line 3: `const MAX_RESULTS = 60; // Maximum number of restaurants to fetch`. -/
def MAX_RESULTS : ℕ := 60

/-- Line 2: `const SIGNIFICANT_DISTANCE_THRESHOLD = 8046.72; // 5 miles in meters`. -/
noncomputable def SIGNIFICANT_DISTANCE_THRESHOLD : ℝ := 8046.72

/-! ## Deduplicator (lines 181-191) -/

/-- The `filter` callback of lines 183-190 run over the array from left to right, with the
`seen` set as the accumulated state.  `toLowerCase` is `String.prototype.toLowerCase`. -/
def filterUniqueFrom (toLowerCase : String → String) (seen : List String) :
    List Restaurant → List Restaurant
  | [] => []
  | restaurant :: rest =>
    let name := toLowerCase restaurant.name
    if name ∈ seen then filterUniqueFrom toLowerCase seen rest
    else restaurant :: filterUniqueFrom toLowerCase (name :: seen) rest

/-- Lines 181-191: `seen` starts as the empty set. -/
def filterUniqueRestaurants (toLowerCase : String → String)
    (restaurants : List Restaurant) : List Restaurant :=
  filterUniqueFrom toLowerCase [] restaurants

/-- The specification of the deduplicator, in its own words: the entries of `xs`, in order,
whose lower-cased name differs from the lower-cased name of every earlier entry of `xs`. -/
def firstOccurrences (toLowerCase : String → String) (xs : List Restaurant) :
    List Restaurant :=
  (List.range xs.length).filterMap fun i =>
    match xs[i]? with
    | some r =>
      if ∀ e ∈ xs.take i, toLowerCase e.name ≠ toLowerCase r.name then some r else none
    | none => none

/-- The same selection relative to a set of names that were seen before `xs` starts. -/
def firstOccurrencesFrom (toLowerCase : String → String) (seen : List String)
    (xs : List Restaurant) : List Restaurant :=
  (List.range xs.length).filterMap fun i =>
    match xs[i]? with
    | some r =>
      if toLowerCase r.name ∉ seen ∧
          ∀ e ∈ xs.take i, toLowerCase e.name ≠ toLowerCase r.name then some r else none
    | none => none

/-- Lower-casing of the letters `A`-`Z`, on which `toLowerCase` agrees for ASCII names. -/
def asciiLower (s : String) : String := ⟨s.data.map Char.toLower⟩

/-! ## DistanceCalculator (lines 166-179), over the reals -/

/-- The two-argument arctangent `Math.atan2(y, x)`. -/
noncomputable def atan2 (y x : ℝ) : ℝ :=
  if 0 < x then Real.arctan (y / x)
  else if x < 0 then
    if 0 ≤ y then Real.arctan (y / x) + Real.pi else Real.arctan (y / x) - Real.pi
  else if 0 < y then Real.pi / 2
  else if y < 0 then -(Real.pi / 2)
  else 0

/-- Lines 168-175: the haversine term `a`. -/
noncomputable def haversineTerm (location1 location2 : Coordinate ℝ) : ℝ :=
  let lat1 := location1.latitude * Real.pi / 180
  let lat2 := location2.latitude * Real.pi / 180
  let deltaLat := (location2.latitude - location1.latitude) * Real.pi / 180
  let deltaLng := (location2.longitude - location1.longitude) * Real.pi / 180
  Real.sin (deltaLat / 2) * Real.sin (deltaLat / 2) +
    Real.cos lat1 * Real.cos lat2 *
    Real.sin (deltaLng / 2) * Real.sin (deltaLng / 2)

/-- Lines 166-179, with `R = 6371e3`. -/
noncomputable def calculateDistance (location1 location2 : Coordinate ℝ) : ℝ :=
  let R : ℝ := 6371000
  let a := haversineTerm location1 location2
  let c := 2 * atan2 (Real.sqrt a) (Real.sqrt (1 - a))
  R * c

/-! ## Cache Store (lines 138-164) -/

section Cache
variable {F : Type}

/-- Lines 138-140. -/
def cacheRestaurants (restaurants : List Restaurant) (s : State F) : State F :=
  { s with localStorage := { s.localStorage with cachedRestaurants := some restaurants } }

/-- Lines 142-145: a missing key reads as the empty array. -/
def getCachedRestaurants (store : Store F) : List Restaurant :=
  match store.cachedRestaurants with
  | some cachedData => cachedData
  | none => []

/-- Lines 147-149. -/
def cacheLocation (location : Coordinate F) (s : State F) : State F :=
  { s with localStorage := { s.localStorage with cachedLocation := some location } }

/-- Lines 151-154: a missing key reads as `null`. -/
def getCachedLocation (store : Store F) : Option (Coordinate F) :=
  match store.cachedLocation with
  | some cachedData => some cachedData
  | none => none

/-- Lines 156-164: both keys removed, both variables reset, one line logged. -/
def clearCachedData (_s : State F) : State F × List Output :=
  ({ cachedRestaurants := [],
     cachedLocation := none,
     localStorage := { cachedRestaurants := none, cachedLocation := none } },
   [Output.log "Cached data cleared due to page refresh or significant location change."])

/-- Lines 7-11: the variables are initialised from `localStorage`, then the cache is
cleared.  The location check of line 14 answers later, as a callback of its own. -/
def startup (store : Store F) : State F × List Output :=
  clearCachedData
    { cachedRestaurants := getCachedRestaurants store,
      cachedLocation := getCachedLocation store,
      localStorage := store }

end Cache

/-! ## LocationMonitor (lines 32-54) -/

/-- Lines 32-54, for one answer of the geolocation provider.  `calculateDistance` and the
threshold are arguments so that the function runs over any ordered number type. -/
def checkLocationForSignificantChanges {F : Type} [LinearOrder F]
    (calculateDistance : Coordinate F → Coordinate F → F)
    (SIGNIFICANT_DISTANCE_THRESHOLD : F)
    (geo : GeoOutcome F) (s : State F) : State F × List Output :=
  match geo with
  | GeoOutcome.unsupported => (s, [Output.log "Geolocation is not supported by this browser."])
  | GeoOutcome.failed => (s, [Output.log "Failed to get your location."])
  | GeoOutcome.position currentLocation =>
    let afterCheck : State F × List Output :=
      match s.cachedLocation with
      | some cachedLocation =>
        let distance := calculateDistance currentLocation cachedLocation
        if distance > SIGNIFICANT_DISTANCE_THRESHOLD then
          ((clearCachedData s).1, (clearCachedData s).2 ++ [Output.refreshPage])
        else (s, [])
      | none => (s, [])
    (cacheLocation currentLocation { afterCheck.1 with cachedLocation := some currentLocation },
     afterCheck.2)

/-! ## Picker (lines 111-119) and RestaurantFetcher (lines 56-109) -/

section Fetch
variable {F : Type}

/-- The index `Math.floor(Math.random() * cachedRestaurants.length)` for a draw `random`. -/
def randomIndex (random : ℚ) (length : ℕ) : ℤ :=
  ⌊random * (length : ℚ)⌋

/-- Array indexing `restaurants[i]`: `undefined` outside `0 .. length - 1`. -/
def elementAt (restaurants : List Restaurant) (i : ℤ) : Option Restaurant :=
  if 0 ≤ i then restaurants[i.toNat]? else none

/-- Lines 111-119.  `fetch` is the call of `getLocationAndFetchRestaurants` in the `else`
branch and `random` is the value of `Math.random()`. -/
def displayRandomRestaurantFromCache (fetch : State F → State F × List Output)
    (random : ℚ) (s : State F) : State F × List Output :=
  if s.cachedRestaurants.length > 0 then
    match elementAt s.cachedRestaurants (randomIndex random s.cachedRestaurants.length) with
    | some restaurant => (s, [Output.displayRestaurant restaurant])
    | none => (s, [Output.uncaughtTypeError])
  else
    ((fetch s).1, Output.log "No cached restaurants available." :: (fetch s).2)

/-- Lines 76-97: the callback `handlePage` run over the pages the service delivers, with
`allResults` as the accumulator.  `display` is the call of
`displayRandomRestaurantFromCache` at line 89.  When the next page was requested and no
further callback arrives, nothing more happens. -/
def handlePage (toLowerCase : String → String) (currentLocation : Coordinate F)
    (display : State F → State F × List Output) (s : State F) :
    List Restaurant → List Page → State F × List Output
  | _, [] => (s, [])
  | allResults, page :: later =>
    if page.status = PlacesServiceStatus.OK ∧ page.results.length > 0 then
      let allResults := allResults ++ page.results
      if page.hasNextPage = true ∧ allResults.length < MAX_RESULTS then
        handlePage toLowerCase currentLocation display s allResults later
      else
        let uniqueResults := filterUniqueRestaurants toLowerCase allResults
        let s := cacheRestaurants uniqueResults s
        let s := cacheLocation currentLocation s
        display { s with cachedRestaurants := uniqueResults,
                         cachedLocation := some currentLocation }
    else
      (s, [Output.displayError "No open restaurants found."])

/-- Lines 56-109.  The list holds the environment of this call and of every further call
that `displayRandomRestaurantFromCache` makes; with no environment left no callback fires. -/
def getLocationAndFetchRestaurants (toLowerCase : String → String) (random : ℚ) :
    List (FetchEnv F) → State F → State F × List Output
  | [], s => (s, [])
  | env :: later, s =>
    match env.geo with
    | GeoOutcome.unsupported =>
      (s, [Output.displayError "Geolocation is not supported by this browser."])
    | GeoOutcome.failed => (s, [Output.displayError "Failed to get your location."])
    | GeoOutcome.position currentLocation =>
      match env.search with
      | SearchOutcome.threw message =>
        (s, [Output.displayError ("Failed to fetch restaurant. " ++ message)])
      | SearchOutcome.pages delivered =>
        handlePage toLowerCase currentLocation
          (displayRandomRestaurantFromCache
            (getLocationAndFetchRestaurants toLowerCase random later) random)
          s [] delivered

/-- Lines 16-30: the click handler; the delayed callback of lines 22-26 runs at once. -/
def pickButtonClick (toLowerCase : String → String) (random : ℚ)
    (envs : List (FetchEnv F)) (s : State F) : State F × List Output :=
  if s.cachedRestaurants.length > 0 then
    displayRandomRestaurantFromCache
      (getLocationAndFetchRestaurants toLowerCase random envs) random s
  else
    getLocationAndFetchRestaurants toLowerCase random envs s

/-- What the run of `handlePage` over the delivered pages comes to, as a value: the next
page was requested and never delivered, a page made the `else` branch of line 94 run, or
line 83 was reached with `allResults`. -/
inductive PageOutcome where
  | awaiting
  | noResults
  | finished (allResults : List Restaurant)
  deriving DecidableEq

/-- The tests of lines 78 and 80 alone, over the delivered pages. -/
def collectPages : List Restaurant → List Page → PageOutcome
  | _, [] => PageOutcome.awaiting
  | allResults, page :: later =>
    if page.status = PlacesServiceStatus.OK ∧ page.results.length > 0 then
      if page.hasNextPage = true ∧ (allResults ++ page.results).length < MAX_RESULTS then
        collectPages (allResults ++ page.results) later
      else PageOutcome.finished (allResults ++ page.results)
    else PageOutcome.noResults

/-- The state that lines 83-88 leave behind for the accumulated `allResults`. -/
def cacheWritten (toLowerCase : String → String) (currentLocation : Coordinate F)
    (allResults : List Restaurant) : State F :=
  { cachedRestaurants := filterUniqueRestaurants toLowerCase allResults,
    cachedLocation := some currentLocation,
    localStorage :=
      { cachedRestaurants := some (filterUniqueRestaurants toLowerCase allResults),
        cachedLocation := some currentLocation } }

end Fetch

/-! ## Runs of the script -/

/-- The callbacks that the browser can run, each with what the environment answers: a page
load (lines 7-11), the geolocation answer of a location check, a click on the button, the
delayed callback of lines 22-26 on its own, and a fetch cycle on its own. -/
inductive Input (F : Type) where
  | pageLoad
  | locationCheck (geo : GeoOutcome F)
  | click (random : ℚ) (envs : List (FetchEnv F))
  | delayedDisplay (random : ℚ) (envs : List (FetchEnv F))
  | fetch (random : ℚ) (envs : List (FetchEnv F))

section Run
variable {F : Type} [LinearOrder F]

/-- One callback run to completion. -/
def step (toLowerCase : String → String)
    (calculateDistance : Coordinate F → Coordinate F → F) (threshold : F)
    (s : State F) : Input F → State F × List Output
  | Input.pageLoad => startup s.localStorage
  | Input.locationCheck geo =>
    checkLocationForSignificantChanges calculateDistance threshold geo s
  | Input.click random envs => pickButtonClick toLowerCase random envs s
  | Input.delayedDisplay random envs =>
    displayRandomRestaurantFromCache
      (getLocationAndFetchRestaurants toLowerCase random envs) random s
  | Input.fetch random envs => getLocationAndFetchRestaurants toLowerCase random envs s

/-- The state after a page load on `store` followed by the given callbacks. -/
def run (toLowerCase : String → String)
    (calculateDistance : Coordinate F → Coordinate F → F) (threshold : F)
    (store : Store F) (inputs : List (Input F)) : State F :=
  inputs.foldl (fun s input => (step toLowerCase calculateDistance threshold s input).1)
    (startup store).1

end Run

/-! ## Where the cached collection comes from

Bookkeeping about a run, kept next to the state and never read by the script: the
coordinate of the fetch cycle that wrote the collection now cached, and the coordinate that
the latest location check has observed since. -/

/-- The history of the cached collection. -/
structure Provenance (F : Type) where
  fetchedAt : Option (Coordinate F)
  observedSince : Option (Coordinate F)

section Tracking
variable {F : Type} [LinearOrder F]

/-- The coordinate at which a call of `getLocationAndFetchRestaurants` writes the cache:
the position of its environment when the pages lead to line 83, nothing otherwise. -/
def fetchCoordinate : List (FetchEnv F) → Option (Coordinate F)
  | [] => none
  | env :: _ =>
    match env.geo, env.search with
    | GeoOutcome.position c, SearchOutcome.pages delivered =>
      match collectPages [] delivered with
      | PageOutcome.finished _ => some c
      | _ => none
    | _, _ => none

/-- The history after a fetch cycle in the given environments. -/
def trackFetch (p : Provenance F) (envs : List (FetchEnv F)) : Provenance F :=
  match fetchCoordinate envs with
  | some c => { fetchedAt := some c, observedSince := none }
  | none => p

/-- The history after one callback that led from `s` to `s'`. -/
def track (p : Provenance F) (s s' : State F) : Input F → Provenance F
  | Input.pageLoad => { fetchedAt := none, observedSince := none }
  | Input.locationCheck (GeoOutcome.position c) =>
    if s'.cachedRestaurants.isEmpty then { fetchedAt := none, observedSince := none }
    else { p with observedSince := some c }
  | Input.locationCheck _ => p
  | Input.click _ envs => if s.cachedRestaurants.length > 0 then p else trackFetch p envs
  | Input.delayedDisplay _ envs =>
    if s.cachedRestaurants.length > 0 then p else trackFetch p envs
  | Input.fetch _ envs => trackFetch p envs

/-- The run of `run`, with the history of the cached collection kept alongside. -/
def runTracked (toLowerCase : String → String)
    (calculateDistance : Coordinate F → Coordinate F → F) (threshold : F)
    (store : Store F) (inputs : List (Input F)) : State F × Provenance F :=
  inputs.foldl
    (fun sp input =>
      ((step toLowerCase calculateDistance threshold sp.1 input).1,
       track sp.2 sp.1 (step toLowerCase calculateDistance threshold sp.1 input).1 input))
    ((startup store).1, { fetchedAt := none, observedSince := none })

/-- The relation between state and history that every callback keeps. -/
def Traced (s : State F) (p : Provenance F) : Prop :=
  s.cachedRestaurants ≠ [] →
    ∃ c, p.fetchedAt = some c ∧ s.cachedLocation = some (p.observedSince.getD c) ∧
      s.localStorage.cachedLocation = s.cachedLocation

end Tracking


/-! ## Concrete inputs -/

/-- Restaurants `count` in number with pairwise different names, of `first + 1`,
`first + 2`, ... letters. -/
def sampleRestaurants (first count : ℕ) : List Restaurant :=
  (List.range count).map fun i =>
    { name := ⟨List.replicate (first + i + 1) 'r'⟩, vicinity := "Main Street", rating := 4 }

/-- Four pages of at most 20 results each: 20, 20 and 19 results with a further page, then
20 results and no further page. -/
def overflowPages : List Page :=
  [ { status := PlacesServiceStatus.OK, results := sampleRestaurants 0 20, hasNextPage := true },
    { status := PlacesServiceStatus.OK, results := sampleRestaurants 20 20, hasNextPage := true },
    { status := PlacesServiceStatus.OK, results := sampleRestaurants 40 19, hasNextPage := true },
    { status := PlacesServiceStatus.OK, results := sampleRestaurants 59 20,
      hasNextPage := false } ]

/-- The point of latitude 0 and longitude 0, in rational degrees. -/
def origin : Coordinate ℚ := { latitude := 0, longitude := 0 }

/-- A cache that holds three restaurants fetched at `origin`. -/
def sampleState : State ℚ := cacheWritten asciiLower origin (sampleRestaurants 0 3)

/-- The point of latitude 0 and longitude 0, in real degrees. -/
noncomputable def equatorWest : Coordinate ℝ := { latitude := 0, longitude := 0 }

/-- The point of latitude 0 and longitude 180, opposite `equatorWest` on the globe. -/
noncomputable def antipode : Coordinate ℝ := { latitude := 0, longitude := 180 }

/-- The point of latitude 0 and longitude 1/100, about 1.1 km east of `equatorWest`. -/
noncomputable def nearby : Coordinate ℝ := { latitude := 0, longitude := 1 / 100 }

/-- A page with a status other than `OK`. -/
def emptyPage : Page :=
  { status := PlacesServiceStatus.ZERO_RESULTS, results := [], hasNextPage := false }

/-- The point of the equator whose distance from `equatorWest` is the threshold itself. -/
noncomputable def atThreshold : Coordinate ℝ :=
  { latitude := 0, longitude := 8046.72 * 180 / (6371000 * Real.pi) }

/-- A cache over real coordinates that holds three restaurants fetched at `equatorWest`. -/
noncomputable def fetchedAtEquator : State ℝ :=
  cacheWritten asciiLower equatorWest (sampleRestaurants 0 3)

/-- One page of three restaurants with no further page. -/
def threeResults : Page :=
  { status := PlacesServiceStatus.OK, results := sampleRestaurants 0 3, hasNextPage := false }

/-- A page of 20 results that reports a further page. -/
def fullPage (first : ℕ) : Page :=
  { status := PlacesServiceStatus.OK, results := sampleRestaurants first 20,
    hasNextPage := true }

/-! ## Notions for the claims on pagination, outputs and the store -/

/-- The results of the pages `p1 ++ ... ++ pk`, in page order. -/
def concatResults : List Page → List Restaurant
  | [] => []
  | page :: later => page.results ++ concatResults later

/-- The outputs addressed to the user: a restaurant to display or an error message. -/
def isDisplay : Output → Bool
  | Output.displayRestaurant _ => true
  | Output.displayError _ => true
  | _ => false

/-- The variables mirror the store: the restaurants key is absent with an empty array in
memory or holds the non-empty array in memory, and the location key holds what the
variable holds, absent for `null`. -/
def Agree {F : Type} (s : State F) : Prop :=
  ((s.localStorage.cachedRestaurants = none ∧ s.cachedRestaurants = []) ∨
    (s.localStorage.cachedRestaurants = some s.cachedRestaurants ∧ s.cachedRestaurants ≠ [])) ∧
  s.localStorage.cachedLocation = s.cachedLocation

/-- A search result. -/
def cafeLuna : Restaurant := { name := "Cafe Luna", vicinity := "1 Main Street", rating := 4 }

/-- A search result with a name of its own. -/
def diner : Restaurant := { name := "Diner", vicinity := "2 Main Street", rating := 5 }

/-- A search result with the name of `cafeLuna` in capitals. -/
def cafeLunaCapitals : Restaurant :=
  { name := "CAFE LUNA", vicinity := "3 Side Street", rating := 3 }

/-! ## The product of line 113 in double precision

`Math.random() * cachedRestaurants.length` is the double nearest to the exact product, a
tie going to the double with an even last bit.  A finite double is a rational, so the
rounding is a function on `ℚ`; overflow does not arise for products below `2 ^ 32`. -/

/-- Rounding to the nearest integer, a tie going to the even neighbour. -/
def roundHalfEven (x : ℚ) : ℤ :=
  if x - ⌊x⌋ < 1 / 2 then ⌊x⌋
  else if 1 / 2 < x - ⌊x⌋ then ⌊x⌋ + 1
  else if ⌊x⌋ % 2 = 0 then ⌊x⌋
  else ⌊x⌋ + 1

/-- The spacing of the doubles at `x ≠ 0`: `2 ^ (e - 52)` when `2 ^ e ≤ |x| < 2 ^ (e + 1)`,
and `2 ^ (-1074)` for `|x| < 2 ^ (-1022)`. -/
def doubleSpacing (x : ℚ) : ℚ :=
  (2 : ℚ) ^ (max (Int.log 2 |x|) (-1022) - 52)

/-- The double nearest to `x`, for `|x| < 2 ^ 1023`. -/
def toDouble (x : ℚ) : ℚ :=
  if x = 0 then 0 else (roundHalfEven (x / doubleSpacing x) : ℚ) * doubleSpacing x

/-- A rational that is a double: rounding leaves it as it is. -/
def IsDouble (x : ℚ) : Prop := toDouble x = x

/-- Line 113 with the product rounded as the script computes it; `Math.floor` is exact. -/
def randomIndexDouble (random : ℚ) (length : ℕ) : ℤ :=
  ⌊toDouble (random * (length : ℚ))⌋

/-- The draw `6004799503160661 / 2 ^ 53`, the greatest multiple of `2 ^ (-53)` below 2/3. -/
def drawBelowTwoThirds : ℚ := 6004799503160661 / 2 ^ 53

/-! ## The distance as an engine computes it

The script evaluates lines 166-179 in double precision with the engine's `Math.sin`,
`Math.cos`, `Math.sqrt` and `Math.atan2`.  Here the arithmetic and these functions are
arguments, so that what is proved of the location check holds for every way of computing
the distance. -/

/-- The operations that lines 166-179 use, over a number type `F`. -/
structure JSMath (F : Type) where
  PI : F
  ofNat : ℕ → F
  add : F → F → F
  sub : F → F → F
  mul : F → F → F
  div : F → F → F
  sin : F → F
  cos : F → F
  sqrt : F → F
  atan2 : F → F → F

/-- Lines 166-179 over the operations of `m`. -/
def calculateDistanceWith {F : Type} (m : JSMath F) (location1 location2 : Coordinate F) : F :=
  let R := m.ofNat 6371000
  let lat1 := m.div (m.mul location1.latitude m.PI) (m.ofNat 180)
  let lat2 := m.div (m.mul location2.latitude m.PI) (m.ofNat 180)
  let deltaLat :=
    m.div (m.mul (m.sub location2.latitude location1.latitude) m.PI) (m.ofNat 180)
  let deltaLng :=
    m.div (m.mul (m.sub location2.longitude location1.longitude) m.PI) (m.ofNat 180)
  let a :=
    m.add
      (m.mul (m.sin (m.div deltaLat (m.ofNat 2))) (m.sin (m.div deltaLat (m.ofNat 2))))
      (m.mul
        (m.mul (m.mul (m.cos lat1) (m.cos lat2)) (m.sin (m.div deltaLng (m.ofNat 2))))
        (m.sin (m.div deltaLng (m.ofNat 2))))
  let c := m.mul (m.ofNat 2) (m.atan2 (m.sqrt a) (m.sqrt (m.sub (m.ofNat 1) a)))
  m.mul R c

/-- The operations over the reals, exact. -/
noncomputable def realMath : JSMath ℝ where
  PI := Real.pi
  ofNat := fun n => (n : ℝ)
  add := fun x y => x + y
  sub := fun x y => x - y
  mul := fun x y => x * y
  div := fun x y => x / y
  sin := Real.sin
  cos := Real.cos
  sqrt := Real.sqrt
  atan2 := atan2

/-- A number as line 39 can produce it: a finite double, which is a rational, or `NaN`.
The script only asks whether the number is greater than the threshold, which is false for
`NaN`; `NaN` is therefore the least element `⊥`. -/
abbrev JSNumber : Type := WithBot ℚ

/-- The value `NaN`. -/
def NaN : JSNumber := ⊥

/-! ## Lemmas on the deduplicator -/

theorem filterUniqueFrom_eq_firstOccurrencesFrom (lc : String → String) (xs : List Restaurant) :
    ∀ seen, filterUniqueFrom lc seen xs = firstOccurrencesFrom lc seen xs := by
  induction xs with
  | nil => intro seen; rfl
  | cons r rs ih =>
    intro seen
    unfold firstOccurrencesFrom
    rw [List.length_cons, List.range_succ_eq_map, List.filterMap_cons, List.filterMap_map]
    by_cases h : lc r.name ∈ seen
    · have h0 : filterUniqueFrom lc seen (r :: rs) = filterUniqueFrom lc seen rs := by
        simp [filterUniqueFrom, h]
      rw [h0, ih seen]
      simp only [List.getElem?_cons_zero, h, not_true_eq_false, false_and, if_false]
      unfold firstOccurrencesFrom
      apply List.filterMap_congr
      intro i _
      simp only [Function.comp, Nat.succ_eq_add_one, List.getElem?_cons_succ, List.take_succ_cons]
      cases hx : rs[i]? with
      | none => rfl
      | some x =>
        simp only [List.mem_cons, forall_eq_or_imp]
        by_cases hxs : lc x.name ∈ seen
        · simp [hxs]
        · have : lc r.name ≠ lc x.name := fun e => hxs (e ▸ h)
          simp [hxs, this]
    · have h0 : filterUniqueFrom lc seen (r :: rs) =
          r :: filterUniqueFrom lc (lc r.name :: seen) rs := by
        simp [filterUniqueFrom, h]
      rw [h0, ih (lc r.name :: seen)]
      simp only [List.getElem?_cons_zero, h, not_false_eq_true, List.take_zero, List.not_mem_nil,
        false_implies, implies_true, and_self, if_true]
      congr 1
      unfold firstOccurrencesFrom
      apply List.filterMap_congr
      intro i _
      simp only [Function.comp, Nat.succ_eq_add_one, List.getElem?_cons_succ, List.take_succ_cons]
      cases hx : rs[i]? with
      | none => rfl
      | some x =>
        simp only [List.mem_cons, forall_eq_or_imp, not_or]
        by_cases hxs : lc x.name ∈ seen
        · simp [hxs]
        · by_cases hr : lc r.name = lc x.name
          · simp [hr]
          · have hr' : ¬ lc x.name = lc r.name := fun e => hr e.symm
            simp [hxs, hr, hr']

theorem firstOccurrencesFrom_nil (lc : String → String) (xs : List Restaurant) :
    firstOccurrencesFrom lc [] xs = firstOccurrences lc xs := by
  unfold firstOccurrencesFrom firstOccurrences
  apply List.filterMap_congr
  intro i _
  cases xs[i]? <;> simp

theorem filterUniqueFrom_idem (lc : String → String) (xs : List Restaurant) :
    ∀ seen, filterUniqueFrom lc seen (filterUniqueFrom lc seen xs) = filterUniqueFrom lc seen xs := by
  induction xs with
  | nil => intro seen; rfl
  | cons r rs ih =>
    intro seen
    by_cases h : lc r.name ∈ seen
    · simp [filterUniqueFrom, h, ih seen]
    · simp [filterUniqueFrom, h, ih (lc r.name :: seen)]

theorem filterUniqueFrom_sublist (lc : String → String) (xs : List Restaurant) :
    ∀ seen, List.Sublist (filterUniqueFrom lc seen xs) xs := by
  induction xs with
  | nil => intro seen; exact List.Sublist.slnil
  | cons r rs ih =>
    intro seen
    by_cases h : lc r.name ∈ seen
    · simp only [filterUniqueFrom, h, if_true]
      exact (ih seen).cons r
    · simp only [filterUniqueFrom, h, if_false]
      exact (ih _).cons₂ r

theorem filterUniqueFrom_not_seen (lc : String → String) (xs : List Restaurant) :
    ∀ seen, ∀ x ∈ filterUniqueFrom lc seen xs, lc x.name ∉ seen := by
  induction xs with
  | nil => intro seen x hx; simp [filterUniqueFrom] at hx
  | cons r rs ih =>
    intro seen x hx
    by_cases h : lc r.name ∈ seen
    · simp only [filterUniqueFrom, h, if_true] at hx
      exact ih seen x hx
    · simp only [filterUniqueFrom, h, if_false, List.mem_cons] at hx
      rcases hx with rfl | hx
      · exact h
      · exact fun hm => ih _ x hx (List.mem_cons_of_mem _ hm)

theorem filterUniqueFrom_pairwise (lc : String → String) (xs : List Restaurant) :
    ∀ seen, (filterUniqueFrom lc seen xs).Pairwise (fun a b => lc a.name ≠ lc b.name) := by
  induction xs with
  | nil => intro seen; exact List.Pairwise.nil
  | cons r rs ih =>
    intro seen
    by_cases h : lc r.name ∈ seen
    · simp only [filterUniqueFrom, h, if_true]
      exact ih seen
    · simp only [filterUniqueFrom, h, if_false]
      refine List.Pairwise.cons ?_ (ih _)
      intro x hx e
      exact filterUniqueFrom_not_seen lc rs _ x hx (e ▸ List.mem_cons_self _ _)


section FetchLemmas
variable {F : Type}

theorem filterUniqueRestaurants_ne_nil (lc : String → String) {xs : List Restaurant}
    (h : xs ≠ []) : filterUniqueRestaurants lc xs ≠ [] := by
  cases xs with
  | nil => exact absurd rfl h
  | cons x rest => simp [filterUniqueRestaurants, filterUniqueFrom]

theorem collectPages_finished_ne_nil (pages : List Page) :
    ∀ acc all, collectPages acc pages = PageOutcome.finished all → all ≠ [] := by
  induction pages with
  | nil => intro acc all h; simp [collectPages] at h
  | cons p ps ih =>
    intro acc all h
    unfold collectPages at h
    split_ifs at h with h1 h2
    · exact ih _ _ h
    · cases h
      intro hnil
      have hlen := congrArg List.length hnil
      have hpos := h1.2
      simp only [List.length_append, List.length_nil] at hlen
      omega

theorem handlePage_eq (lc : String → String) (c : Coordinate F)
    (display : State F → State F × List Output) (s : State F) (pages : List Page) :
    ∀ acc, handlePage lc c display s acc pages =
      match collectPages acc pages with
      | PageOutcome.awaiting => (s, [])
      | PageOutcome.noResults => (s, [Output.displayError "No open restaurants found."])
      | PageOutcome.finished all => display (cacheWritten lc c all) := by
  induction pages with
  | nil => intro acc; rfl
  | cons p ps ih =>
    intro acc
    by_cases h1 : p.status = PlacesServiceStatus.OK ∧ p.results.length > 0
    · by_cases h2 : p.hasNextPage = true ∧ (acc ++ p.results).length < MAX_RESULTS
      · simp only [handlePage, collectPages, h1, h2, and_self, if_true, ih]
      · simp only [handlePage, collectPages, h1, h2, and_self, if_true, if_false]
        rfl
    · simp only [handlePage, collectPages, h1, if_false]

end FetchLemmas

section PickLemmas
variable {F : Type}

theorem randomIndex_nonneg (r : ℚ) (n : ℕ) (h0 : 0 ≤ r) : 0 ≤ randomIndex r n := by
  unfold randomIndex
  exact Int.floor_nonneg.mpr (mul_nonneg h0 (Nat.cast_nonneg n))

theorem randomIndex_lt (r : ℚ) (n : ℕ) (hn : 0 < n) (h1 : r < 1) :
    randomIndex r n < (n : ℤ) := by
  unfold randomIndex
  rw [Int.floor_lt]
  have hpos : (0 : ℚ) < (n : ℚ) := by exact_mod_cast hn
  have := mul_lt_mul_of_pos_right h1 hpos
  simpa using this

theorem elementAt_of_bounds (xs : List Restaurant) (i : ℤ) (h0 : 0 ≤ i)
    (h1 : i < (xs.length : ℤ)) : ∃ x ∈ xs, elementAt xs i = some x := by
  have hlt : i.toNat < xs.length := by omega
  refine ⟨xs[i.toNat], List.getElem_mem _, ?_⟩
  simp [elementAt, h0, List.getElem?_eq_getElem hlt]

/-- What line 114 shows for a draw, or the error raised when the index misses the array. -/
theorem displayRandom_of_nonempty (fetch : State F → State F × List Output) (r : ℚ)
    (s : State F) (h : s.cachedRestaurants ≠ []) :
    displayRandomRestaurantFromCache fetch r s =
      (s, [match elementAt s.cachedRestaurants (randomIndex r s.cachedRestaurants.length) with
           | some x => Output.displayRestaurant x
           | none => Output.uncaughtTypeError]) := by
  have hpos : s.cachedRestaurants.length > 0 := List.length_pos.mpr h
  unfold displayRandomRestaurantFromCache
  rw [if_pos hpos]
  cases elementAt s.cachedRestaurants (randomIndex r s.cachedRestaurants.length) <;> rfl

theorem cacheWritten_nonempty (lc : String → String) (c : Coordinate F)
    {all : List Restaurant} (h : all ≠ []) :
    (cacheWritten lc c all).cachedRestaurants ≠ [] :=
  filterUniqueRestaurants_ne_nil lc h

/-- The whole of a fetch cycle in one equation: only the first environment is consulted. -/
theorem getLocationAndFetchRestaurants_eq (lc : String → String) (r : ℚ)
    (env : FetchEnv F) (later : List (FetchEnv F)) (s : State F) :
    getLocationAndFetchRestaurants lc r (env :: later) s =
      match env.geo with
      | GeoOutcome.unsupported =>
        (s, [Output.displayError "Geolocation is not supported by this browser."])
      | GeoOutcome.failed => (s, [Output.displayError "Failed to get your location."])
      | GeoOutcome.position c =>
        match env.search with
        | SearchOutcome.threw message =>
          (s, [Output.displayError ("Failed to fetch restaurant. " ++ message)])
        | SearchOutcome.pages delivered =>
          match collectPages [] delivered with
          | PageOutcome.awaiting => (s, [])
          | PageOutcome.noResults => (s, [Output.displayError "No open restaurants found."])
          | PageOutcome.finished all =>
            (cacheWritten lc c all,
             [match elementAt (cacheWritten lc c all).cachedRestaurants
                (randomIndex r (cacheWritten lc c all).cachedRestaurants.length) with
              | some x => Output.displayRestaurant x
              | none => Output.uncaughtTypeError]) := by
  unfold getLocationAndFetchRestaurants
  cases hg : env.geo with
  | unsupported => rfl
  | failed => rfl
  | position c =>
    cases hs : env.search with
    | threw m => rfl
    | pages delivered =>
      simp only [handlePage_eq]
      cases hc : collectPages [] delivered with
      | awaiting => rfl
      | noResults => rfl
      | finished all =>
        simp only
        exact displayRandom_of_nonempty _ r _
          (cacheWritten_nonempty lc c (collectPages_finished_ne_nil delivered [] all hc))

end PickLemmas

section CycleLemmas
variable {F : Type}

theorem collectPages_append_of_awaiting (earlier rest : List Page) :
    ∀ acc, collectPages acc earlier = PageOutcome.awaiting →
      ∃ acc', collectPages acc (earlier ++ rest) = collectPages acc' rest := by
  induction earlier with
  | nil => intro acc _; exact ⟨acc, rfl⟩
  | cons p ps ih =>
    intro acc h
    unfold collectPages at h
    split_ifs at h with h1 h2
    obtain ⟨acc', hacc'⟩ := ih _ h
    refine ⟨acc', ?_⟩
    show collectPages acc (p :: (ps ++ rest)) = collectPages acc' rest
    rw [collectPages, if_pos h1, if_pos h2]
    exact hacc'

theorem fetch_error_unchanged (lc : String → String) (r : ℚ) (envs : List (FetchEnv F))
    (s : State F) (m : String)
    (hmem : Output.displayError m ∈ (getLocationAndFetchRestaurants lc r envs s).2) :
    (getLocationAndFetchRestaurants lc r envs s).1 = s ∧
      (getLocationAndFetchRestaurants lc r envs s).2 = [Output.displayError m] := by
  cases envs with
  | nil => simp [getLocationAndFetchRestaurants] at hmem
  | cons env later =>
    rw [getLocationAndFetchRestaurants_eq] at hmem ⊢
    cases hg : env.geo with
    | unsupported => simp only [hg, List.mem_singleton] at hmem; simp [hmem]
    | failed => simp only [hg, List.mem_singleton] at hmem; simp [hmem]
    | position c =>
      simp only [hg] at hmem ⊢
      cases hs : env.search with
      | threw msg => simp only [hs, List.mem_singleton] at hmem; simp [hmem]
      | pages delivered =>
        simp only [hs] at hmem ⊢
        cases hc : collectPages [] delivered with
        | awaiting => simp [hc] at hmem
        | noResults => simp only [hc, List.mem_singleton] at hmem; simp [hmem]
        | finished all =>
          simp only [hc, List.mem_singleton] at hmem
          split at hmem <;> cases hmem

end CycleLemmas

/-! ## Lemmas on the distance -/

theorem cos_mul_cos_eq (p q : ℝ) :
    Real.cos p * Real.cos q =
      Real.cos ((p + q) / 2) ^ 2 - Real.sin ((q - p) / 2) ^ 2 := by
  have hp : p = (p + q) / 2 - (q - p) / 2 := by ring
  have hq : q = (p + q) / 2 + (q - p) / 2 := by ring
  have hA := Real.sin_sq_add_cos_sq ((p + q) / 2)
  have hB := Real.sin_sq_add_cos_sq ((q - p) / 2)
  conv_lhs => rw [hp]; arg 2; rw [hq]
  rw [Real.cos_sub, Real.cos_add]
  linear_combination (Real.cos ((p + q) / 2)) ^ 2 * hB - (Real.sin ((q - p) / 2)) ^ 2 * hA

theorem haversineTerm_eq_mix (a b : Coordinate ℝ) :
    haversineTerm a b =
      Real.sin ((b.latitude * Real.pi / 180 - a.latitude * Real.pi / 180) / 2) ^ 2 *
          (1 - Real.sin ((b.longitude - a.longitude) * Real.pi / 180 / 2) ^ 2) +
        Real.cos ((a.latitude * Real.pi / 180 + b.latitude * Real.pi / 180) / 2) ^ 2 *
          Real.sin ((b.longitude - a.longitude) * Real.pi / 180 / 2) ^ 2 := by
  unfold haversineTerm
  simp only
  rw [cos_mul_cos_eq]
  have h : (b.latitude - a.latitude) * Real.pi / 180 / 2 =
      (b.latitude * Real.pi / 180 - a.latitude * Real.pi / 180) / 2 := by ring
  rw [h]
  ring

theorem haversineTerm_nonneg (a b : Coordinate ℝ) : 0 ≤ haversineTerm a b := by
  rw [haversineTerm_eq_mix]
  have h1 := Real.sin_sq_le_one ((b.longitude - a.longitude) * Real.pi / 180 / 2)
  have h2 := sq_nonneg (Real.sin ((b.latitude * Real.pi / 180 - a.latitude * Real.pi / 180) / 2))
  have h3 := sq_nonneg (Real.cos ((a.latitude * Real.pi / 180 + b.latitude * Real.pi / 180) / 2))
  have h4 := sq_nonneg (Real.sin ((b.longitude - a.longitude) * Real.pi / 180 / 2))
  have h5 : 0 ≤ 1 - Real.sin ((b.longitude - a.longitude) * Real.pi / 180 / 2) ^ 2 := by linarith
  exact add_nonneg (mul_nonneg h2 h5) (mul_nonneg h3 h4)

theorem haversineTerm_le_one (a b : Coordinate ℝ) : haversineTerm a b ≤ 1 := by
  rw [haversineTerm_eq_mix]
  have h1 := Real.sin_sq_le_one ((b.longitude - a.longitude) * Real.pi / 180 / 2)
  have h2 := Real.sin_sq_le_one ((b.latitude * Real.pi / 180 - a.latitude * Real.pi / 180) / 2)
  have h3 := Real.cos_sq_le_one ((a.latitude * Real.pi / 180 + b.latitude * Real.pi / 180) / 2)
  have h4 := sq_nonneg (Real.sin ((b.longitude - a.longitude) * Real.pi / 180 / 2))
  have h5 : 0 ≤ 1 - Real.sin ((b.longitude - a.longitude) * Real.pi / 180 / 2) ^ 2 := by linarith
  nlinarith [mul_le_mul_of_nonneg_right h2 h5, mul_le_mul_of_nonneg_right h3 h4]

theorem haversineTerm_self (a : Coordinate ℝ) : haversineTerm a a = 0 := by
  simp [haversineTerm]

theorem haversineTerm_comm (a b : Coordinate ℝ) : haversineTerm a b = haversineTerm b a := by
  unfold haversineTerm
  simp only
  have h1 : (b.latitude - a.latitude) * Real.pi / 180 / 2 =
      -((a.latitude - b.latitude) * Real.pi / 180 / 2) := by ring
  have h2 : (b.longitude - a.longitude) * Real.pi / 180 / 2 =
      -((a.longitude - b.longitude) * Real.pi / 180 / 2) := by ring
  rw [h1, h2, Real.sin_neg, Real.sin_neg]
  ring

theorem arctan_nonneg_of_nonneg {t : ℝ} (ht : 0 ≤ t) : 0 ≤ Real.arctan t := by
  have h := Real.arctan_strictMono.monotone ht
  rwa [Real.arctan_zero] at h

theorem atan2_nonneg_of_nonneg {y x : ℝ} (hy : 0 ≤ y) (hx : 0 ≤ x) : 0 ≤ atan2 y x := by
  unfold atan2
  by_cases h1 : 0 < x
  · rw [if_pos h1]
    exact arctan_nonneg_of_nonneg (div_nonneg hy hx)
  · rw [if_neg h1, if_neg (not_lt.mpr hx)]
    by_cases h2 : 0 < y
    · rw [if_pos h2]
      exact le_of_lt (half_pos Real.pi_pos)
    · rw [if_neg h2, if_neg (not_lt.mpr hy)]

theorem atan2_le_of_nonneg {y x : ℝ} (hy : 0 ≤ y) (hx : 0 ≤ x) :
    atan2 y x ≤ Real.pi / 2 := by
  unfold atan2
  by_cases h1 : 0 < x
  · rw [if_pos h1]
    exact le_of_lt (Real.arctan_lt_pi_div_two _)
  · rw [if_neg h1, if_neg (not_lt.mpr hx)]
    by_cases h2 : 0 < y
    · rw [if_pos h2]
    · rw [if_neg h2, if_neg (not_lt.mpr hy)]
      exact le_of_lt (half_pos Real.pi_pos)

theorem calculateDistance_self (a : Coordinate ℝ) : calculateDistance a a = 0 := by
  unfold calculateDistance
  simp [haversineTerm_self, atan2]

theorem calculateDistance_comm (a b : Coordinate ℝ) :
    calculateDistance a b = calculateDistance b a := by
  unfold calculateDistance
  rw [haversineTerm_comm]

theorem calculateDistance_nonneg (a b : Coordinate ℝ) : 0 ≤ calculateDistance a b := by
  unfold calculateDistance
  have h := atan2_nonneg_of_nonneg (Real.sqrt_nonneg (haversineTerm a b))
    (Real.sqrt_nonneg (1 - haversineTerm a b))
  simp only
  positivity

theorem calculateDistance_le (a b : Coordinate ℝ) :
    calculateDistance a b ≤ Real.pi * 6371000 := by
  unfold calculateDistance
  have h := atan2_le_of_nonneg (Real.sqrt_nonneg (haversineTerm a b))
    (Real.sqrt_nonneg (1 - haversineTerm a b))
  simp only
  linarith

/-- On the equator, from longitude `l` in `[0, 180)` to longitude 0 the distance is the arc
`R * l * π / 180`. -/
theorem calculateDistance_equator (l : ℝ) (h0 : 0 ≤ l) (h1 : l < 180) :
    calculateDistance { latitude := 0, longitude := l } { latitude := 0, longitude := 0 } =
      6371000 * (l * Real.pi / 180) := by
  have hpi := Real.pi_pos
  set x : ℝ := l * Real.pi / 180 / 2 with hx
  have hx0 : 0 ≤ x := by positivity
  have hx1 : x < Real.pi / 2 := by
    rw [hx]
    have : l * Real.pi < 180 * Real.pi := mul_lt_mul_of_pos_right h1 hpi
    linarith
  have hcos : 0 < Real.cos x := Real.cos_pos_of_mem_Ioo ⟨by linarith, hx1⟩
  have hsin : 0 ≤ Real.sin x := Real.sin_nonneg_of_nonneg_of_le_pi hx0 (by linarith)
  have ha : haversineTerm { latitude := 0, longitude := l } { latitude := 0, longitude := 0 } =
      Real.sin x ^ 2 := by
    unfold haversineTerm
    have e : (0 - l) * Real.pi / 180 / 2 = -x := by rw [hx]; ring
    simp only [sub_self, zero_mul, zero_div, Real.sin_zero, Real.cos_zero, mul_zero, mul_one,
      zero_add, one_mul, e, Real.sin_neg]
    ring
  unfold calculateDistance
  simp only
  rw [ha]
  have h1a : (1 : ℝ) - Real.sin x ^ 2 = Real.cos x ^ 2 := by
    have := Real.sin_sq_add_cos_sq x
    linarith
  rw [h1a, Real.sqrt_sq hsin, Real.sqrt_sq (le_of_lt hcos)]
  unfold atan2
  rw [if_pos hcos, ← Real.tan_eq_sin_div_cos, Real.arctan_tan (by linarith) hx1, hx]
  ring

/-- From longitude 180 to longitude 0 on the equator the distance is half the circumference. -/
theorem calculateDistance_antipode :
    calculateDistance antipode equatorWest = 6371000 * Real.pi := by
  have ha : haversineTerm antipode equatorWest = 1 := by
    unfold haversineTerm antipode equatorWest
    have e : ((0 : ℝ) - 180) * Real.pi / 180 / 2 = -(Real.pi / 2) := by ring
    simp only [sub_self, zero_mul, zero_div, Real.sin_zero, Real.cos_zero, mul_zero, mul_one,
      zero_add, one_mul, e, Real.sin_neg, Real.sin_pi_div_two]
    norm_num
  unfold calculateDistance
  simp only
  rw [ha]
  simp only [sub_self, Real.sqrt_one, Real.sqrt_zero]
  unfold atan2
  simp only [lt_irrefl, if_false, zero_lt_one, if_true]
  ring

theorem threshold_lt_antipode :
    calculateDistance antipode equatorWest > SIGNIFICANT_DISTANCE_THRESHOLD := by
  rw [calculateDistance_antipode]
  unfold SIGNIFICANT_DISTANCE_THRESHOLD
  have := Real.pi_gt_three
  norm_num
  linarith

theorem nearby_le_threshold :
    calculateDistance nearby equatorWest ≤ SIGNIFICANT_DISTANCE_THRESHOLD := by
  unfold nearby equatorWest
  rw [calculateDistance_equator (1 / 100) (by norm_num) (by norm_num)]
  unfold SIGNIFICANT_DISTANCE_THRESHOLD
  have := Real.pi_lt_d2
  norm_num
  linarith

/-! ## Lemmas on the location check -/

section CheckLemmas
variable {F : Type} [LinearOrder F]

theorem check_of_significant (dist : Coordinate F → Coordinate F → F) (thr : F)
    (s : State F) (cached cur : Coordinate F) (hc : s.cachedLocation = some cached)
    (hd : dist cur cached > thr) :
    checkLocationForSignificantChanges dist thr (GeoOutcome.position cur) s =
      ({ cachedRestaurants := [], cachedLocation := some cur,
         localStorage := { cachedRestaurants := none, cachedLocation := some cur } },
       [Output.log "Cached data cleared due to page refresh or significant location change.",
        Output.refreshPage]) := by
  simp only [checkLocationForSignificantChanges, hc, hd, if_true, clearCachedData,
    cacheLocation, List.singleton_append]

theorem check_of_not_significant (dist : Coordinate F → Coordinate F → F) (thr : F)
    (s : State F) (cur : Coordinate F)
    (h : ∀ cached, s.cachedLocation = some cached → dist cur cached ≤ thr) :
    checkLocationForSignificantChanges dist thr (GeoOutcome.position cur) s =
      ({ cachedRestaurants := s.cachedRestaurants, cachedLocation := some cur,
         localStorage := { cachedRestaurants := s.localStorage.cachedRestaurants,
                           cachedLocation := some cur } }, []) := by
  cases hc : s.cachedLocation with
  | none => simp only [checkLocationForSignificantChanges, hc, cacheLocation]
  | some cached =>
    have hn : ¬ dist cur cached > thr := not_lt.mpr (h cached hc)
    simp only [checkLocationForSignificantChanges, hc, hn, if_false, cacheLocation]

end CheckLemmas

theorem atThreshold_distance :
    calculateDistance atThreshold equatorWest = SIGNIFICANT_DISTANCE_THRESHOLD := by
  have hpi := Real.pi_pos
  have h3 := Real.pi_gt_three
  unfold atThreshold equatorWest
  rw [calculateDistance_equator]
  · unfold SIGNIFICANT_DISTANCE_THRESHOLD
    field_simp
    ring
  · positivity
  · rw [div_lt_iff₀ (by positivity)]
    nlinarith

/-! ## Lemmas on runs -/

section RunLemmas
variable {F : Type}

/-- A fetch cycle leaves the state alone or writes collection and location together. -/
theorem fetch_state_cases (lc : String → String) (r : ℚ) (envs : List (FetchEnv F))
    (s : State F) :
    (fetchCoordinate envs = none ∧ (getLocationAndFetchRestaurants lc r envs s).1 = s) ∨
    ∃ c all, fetchCoordinate envs = some c ∧ all ≠ [] ∧
      (getLocationAndFetchRestaurants lc r envs s).1 = cacheWritten lc c all := by
  cases envs with
  | nil => exact Or.inl ⟨rfl, rfl⟩
  | cons env later =>
    obtain ⟨geo, search⟩ := env
    rw [getLocationAndFetchRestaurants_eq]
    cases geo with
    | unsupported => exact Or.inl ⟨rfl, rfl⟩
    | failed => exact Or.inl ⟨rfl, rfl⟩
    | position c =>
      cases search with
      | threw m => exact Or.inl ⟨rfl, rfl⟩
      | pages delivered =>
        cases hc : collectPages [] delivered with
        | awaiting => exact Or.inl ⟨by simp only [fetchCoordinate, hc], by simp only [hc]⟩
        | noResults => exact Or.inl ⟨by simp only [fetchCoordinate, hc], by simp only [hc]⟩
        | finished all =>
          exact Or.inr ⟨c, all, by simp only [fetchCoordinate, hc],
            collectPages_finished_ne_nil delivered [] all hc, by simp only [hc]⟩

theorem display_state_of_nonempty (fetch : State F → State F × List Output) (r : ℚ)
    (s : State F) (h : s.cachedRestaurants.length > 0) :
    (displayRandomRestaurantFromCache fetch r s).1 = s := by
  rw [displayRandom_of_nonempty fetch r s (List.length_pos.mp h)]

theorem display_state_of_empty (fetch : State F → State F × List Output) (r : ℚ)
    (s : State F) (h : ¬ s.cachedRestaurants.length > 0) :
    (displayRandomRestaurantFromCache fetch r s).1 = (fetch s).1 := by
  unfold displayRandomRestaurantFromCache
  rw [if_neg h]

theorem traced_cacheWritten (lc : String → String) (c : Coordinate F)
    (all : List Restaurant) :
    Traced (cacheWritten lc c all) { fetchedAt := some c, observedSince := none } :=
  fun _ => ⟨c, rfl, rfl, rfl⟩

theorem traced_fetch (lc : String → String) (r : ℚ) (envs : List (FetchEnv F))
    (s : State F) (p : Provenance F) (h : Traced s p) :
    Traced (getLocationAndFetchRestaurants lc r envs s).1 (trackFetch p envs) := by
  rcases fetch_state_cases lc r envs s with ⟨hn, hs⟩ | ⟨c, all, hc, _, hs⟩
  · rw [hs]
    unfold trackFetch
    rw [hn]
    exact h
  · rw [hs]
    unfold trackFetch
    rw [hc]
    exact traced_cacheWritten lc c all

end RunLemmas

section TracedLemmas
variable {F : Type} [LinearOrder F]

theorem runTracked_fst (lc : String → String) (dist : Coordinate F → Coordinate F → F)
    (thr : F) (inputs : List (Input F)) :
    ∀ (s : State F) (p : Provenance F),
      (inputs.foldl
        (fun sp input =>
          ((step lc dist thr sp.1 input).1,
           track sp.2 sp.1 (step lc dist thr sp.1 input).1 input)) (s, p)).1 =
      inputs.foldl (fun s input => (step lc dist thr s input).1) s := by
  induction inputs with
  | nil => intro s p; rfl
  | cons i rest ih => intro s p; simp only [List.foldl_cons]; exact ih _ _

theorem traced_step (lc : String → String) (dist : Coordinate F → Coordinate F → F)
    (thr : F) (s : State F) (p : Provenance F) (h : Traced s p) (input : Input F) :
    Traced (step lc dist thr s input).1 (track p s (step lc dist thr s input).1 input) := by
  cases input with
  | pageLoad => intro hne; exact absurd rfl hne
  | locationCheck geo =>
    cases geo with
    | unsupported => exact h
    | failed => exact h
    | position cur =>
      intro hne
      simp only [step, track] at hne ⊢
      have hemp : ¬ (checkLocationForSignificantChanges dist thr (GeoOutcome.position cur)
          s).1.cachedRestaurants.isEmpty = true := by
        rw [List.isEmpty_iff]
        exact hne
      rw [if_neg hemp]
      by_cases hsig : ∃ cached, s.cachedLocation = some cached ∧ dist cur cached > thr
      · obtain ⟨cached, hc, hd⟩ := hsig
        rw [check_of_significant dist thr s cached cur hc hd] at hne
        exact absurd rfl hne
      · have hle : ∀ cached, s.cachedLocation = some cached → dist cur cached ≤ thr := by
          intro cached hc
          exact not_lt.mp fun hd => hsig ⟨cached, hc, hd⟩
        rw [check_of_not_significant dist thr s cur hle] at hne ⊢
        obtain ⟨c, hf, _, _⟩ := h hne
        exact ⟨c, hf, rfl, rfl⟩
  | click r envs =>
    simp only [step, track, pickButtonClick]
    by_cases hpos : s.cachedRestaurants.length > 0
    · rw [if_pos hpos, if_pos hpos, display_state_of_nonempty _ r s hpos]
      exact h
    · rw [if_neg hpos, if_neg hpos]
      exact traced_fetch lc r envs s p h
  | delayedDisplay r envs =>
    simp only [step, track]
    by_cases hpos : s.cachedRestaurants.length > 0
    · rw [if_pos hpos, display_state_of_nonempty _ r s hpos]
      exact h
    · rw [if_neg hpos, display_state_of_empty _ r s hpos]
      exact traced_fetch lc r envs s p h
  | fetch r envs => exact traced_fetch lc r envs s p h

theorem traced_foldl (lc : String → String) (dist : Coordinate F → Coordinate F → F)
    (thr : F) (inputs : List (Input F)) :
    ∀ (s : State F) (p : Provenance F), Traced s p →
      Traced
        (inputs.foldl
          (fun sp input =>
            ((step lc dist thr sp.1 input).1,
             track sp.2 sp.1 (step lc dist thr sp.1 input).1 input)) (s, p)).1
        (inputs.foldl
          (fun sp input =>
            ((step lc dist thr sp.1 input).1,
             track sp.2 sp.1 (step lc dist thr sp.1 input).1 input)) (s, p)).2 := by
  induction inputs with
  | nil => intro s p h; exact h
  | cons i rest ih =>
    intro s p h
    simp only [List.foldl_cons]
    exact ih _ _ (traced_step lc dist thr s p h i)

end TracedLemmas

section StepLemmas
variable {F : Type} [LinearOrder F]

theorem step_restaurants_cases (lc : String → String)
    (dist : Coordinate F → Coordinate F → F) (thr : F) (s : State F) (input : Input F) :
    (step lc dist thr s input).1.cachedRestaurants = s.cachedRestaurants ∨
    (step lc dist thr s input).1.cachedRestaurants = [] ∨
    ∃ c all, all ≠ [] ∧ (step lc dist thr s input).1 = cacheWritten lc c all ∧
      ∀ p, track p s (step lc dist thr s input).1 input =
        { fetchedAt := some c, observedSince := none } := by
  have hfetch : ∀ (r : ℚ) (envs : List (FetchEnv F)),
      (getLocationAndFetchRestaurants lc r envs s).1.cachedRestaurants = s.cachedRestaurants ∨
      (getLocationAndFetchRestaurants lc r envs s).1.cachedRestaurants = [] ∨
      ∃ c all, all ≠ [] ∧ (getLocationAndFetchRestaurants lc r envs s).1 =
          cacheWritten lc c all ∧
        ∀ p, trackFetch p envs = { fetchedAt := some c, observedSince := none } := by
    intro r envs
    rcases fetch_state_cases lc r envs s with ⟨_, hs⟩ | ⟨c, all, hc, hne, hs⟩
    · exact Or.inl (by rw [hs])
    · refine Or.inr (Or.inr ⟨c, all, hne, hs, ?_⟩)
      intro p
      unfold trackFetch
      rw [hc]
  cases input with
  | pageLoad => exact Or.inr (Or.inl rfl)
  | locationCheck geo =>
    cases geo with
    | unsupported => exact Or.inl rfl
    | failed => exact Or.inl rfl
    | position cur =>
      simp only [step]
      by_cases hsig : ∃ cached, s.cachedLocation = some cached ∧ dist cur cached > thr
      · obtain ⟨cached, hc, hd⟩ := hsig
        rw [check_of_significant dist thr s cached cur hc hd]
        exact Or.inr (Or.inl rfl)
      · have hle : ∀ cached, s.cachedLocation = some cached → dist cur cached ≤ thr := by
          intro cached hc
          exact not_lt.mp fun hd => hsig ⟨cached, hc, hd⟩
        rw [check_of_not_significant dist thr s cur hle]
        exact Or.inl rfl
  | click r envs =>
    simp only [step, track, pickButtonClick]
    by_cases hpos : s.cachedRestaurants.length > 0
    · rw [if_pos hpos, display_state_of_nonempty _ r s hpos]
      exact Or.inl rfl
    · simp only [if_neg hpos]
      exact hfetch r envs
  | delayedDisplay r envs =>
    simp only [step, track]
    by_cases hpos : s.cachedRestaurants.length > 0
    · rw [display_state_of_nonempty _ r s hpos]
      exact Or.inl rfl
    · simp only [if_neg hpos, display_state_of_empty _ r s hpos]
      exact hfetch r envs
  | fetch r envs => exact hfetch r envs

end StepLemmas

theorem run_fetch_then_check_restaurants :
    (run asciiLower calculateDistance SIGNIFICANT_DISTANCE_THRESHOLD
        { cachedRestaurants := none, cachedLocation := none }
        [Input.fetch (1 / 2)
          [{ geo := GeoOutcome.position equatorWest,
             search := SearchOutcome.pages [threeResults] }],
         Input.locationCheck (GeoOutcome.position nearby)]).cachedRestaurants =
      filterUniqueRestaurants asciiLower (sampleRestaurants 0 3) := by
  have hpages : collectPages [] [threeResults] = PageOutcome.finished (sampleRestaurants 0 3) := by
    decide
  have hle : ∀ cached,
      (cacheWritten asciiLower equatorWest (sampleRestaurants 0 3)).cachedLocation =
        some cached →
      calculateDistance nearby cached ≤ SIGNIFICANT_DISTANCE_THRESHOLD := by
    intro cached hc
    cases hc
    exact nearby_le_threshold
  simp only [run, List.foldl_cons, List.foldl_nil, step]
  rw [getLocationAndFetchRestaurants_eq]
  simp only [hpages]
  rw [check_of_not_significant calculateDistance SIGNIFICANT_DISTANCE_THRESHOLD _ nearby hle]
  rfl

/-! ## Lemmas on pagination -/

theorem concatResults_append (xs ys : List Page) :
    concatResults (xs ++ ys) = concatResults xs ++ concatResults ys := by
  induction xs with
  | nil => rfl
  | cons p ps ih =>
    show p.results ++ concatResults (ps ++ ys) =
      (p.results ++ concatResults ps) ++ concatResults ys
    rw [ih, List.append_assoc]

theorem collectPages_append_awaiting (earlier rest : List Page) :
    ∀ acc, collectPages acc earlier = PageOutcome.awaiting →
      collectPages acc (earlier ++ rest) = collectPages (acc ++ concatResults earlier) rest := by
  induction earlier with
  | nil => intro acc _; simp only [List.nil_append, concatResults, List.append_nil]
  | cons p ps ih =>
    intro acc h
    unfold collectPages at h
    split_ifs at h with h1 h2
    show collectPages acc (p :: (ps ++ rest)) = _
    rw [collectPages, if_pos h1, if_pos h2, ih _ h]
    simp only [concatResults, List.append_assoc]

theorem collectPages_good (acc : List Restaurant) (page : Page) (later : List Page)
    (hgood : page.status = PlacesServiceStatus.OK ∧ page.results.length > 0) :
    collectPages acc (page :: later) =
      if page.hasNextPage = true ∧ (acc ++ page.results).length < MAX_RESULTS then
        collectPages (acc ++ page.results) later
      else PageOutcome.finished (acc ++ page.results) := by
  rw [collectPages, if_pos hgood]

theorem collectPages_snoc_awaiting (init : List Page) (last : Page) :
    ∀ acc, collectPages acc (init ++ [last]) = PageOutcome.awaiting →
      last.hasNextPage = true := by
  induction init with
  | nil =>
    intro acc h
    simp only [List.nil_append, collectPages] at h
    split_ifs at h with h1 h2
    exact h2.1
  | cons p ps ih =>
    intro acc h
    simp only [List.cons_append, collectPages] at h
    split_ifs at h with h1 h2
    exact ih _ h

theorem collectPages_finished_snoc (earlier : List Page) (last : Page)
    (all : List Restaurant)
    (h1 : collectPages [] earlier = PageOutcome.awaiting)
    (h2 : collectPages [] (earlier ++ [last]) = PageOutcome.finished all) :
    all = concatResults (earlier ++ [last]) := by
  rw [collectPages_append_awaiting earlier [last] [] h1] at h2
  simp only [List.nil_append, collectPages] at h2
  split_ifs at h2 with h3 h4
  cases h2
  simp only [concatResults_append, concatResults, List.append_nil]

theorem collectPages_finished_append (earlier : List Page) (last : Page)
    (rest : List Page) (all : List Restaurant)
    (h1 : collectPages [] earlier = PageOutcome.awaiting)
    (h2 : collectPages [] (earlier ++ [last]) = PageOutcome.finished all) :
    collectPages [] (earlier ++ last :: rest) = PageOutcome.finished all := by
  rw [collectPages_append_awaiting earlier [last] [] h1] at h2
  rw [collectPages_append_awaiting earlier (last :: rest) [] h1]
  simp only [collectPages] at h2 ⊢
  split_ifs at h2 ⊢ with h3 h4
  exact h2

/-! ## Lemmas on outputs and on the agreement of variables and store -/

section OutputLemmas
variable {F : Type}

theorem pick_of_draw (xs : List Restaurant) (r : ℚ) (hne : xs ≠ []) (h0 : 0 ≤ r)
    (h1 : r < 1) : ∃ x ∈ xs, elementAt xs (randomIndex r xs.length) = some x :=
  elementAt_of_bounds xs _ (randomIndex_nonneg r xs.length h0)
    (randomIndex_lt r xs.length (List.length_pos.mpr hne) h1)

theorem display_of_draw (fetch : State F → State F × List Output) (r : ℚ) (s : State F)
    (hne : s.cachedRestaurants ≠ []) (h0 : 0 ≤ r) (h1 : r < 1) :
    ∃ x ∈ s.cachedRestaurants,
      displayRandomRestaurantFromCache fetch r s = (s, [Output.displayRestaurant x]) := by
  obtain ⟨x, hx, hex⟩ := pick_of_draw s.cachedRestaurants r hne h0 h1
  exact ⟨x, hx, by rw [displayRandom_of_nonempty fetch r s hne, hex]⟩

/-- A fetch cycle whose pages reach line 83: the cache is written and one of its
restaurants is shown, whatever environments would serve further calls. -/
theorem fetch_of_finished (lc : String → String) (r : ℚ) (h0 : 0 ≤ r) (h1 : r < 1)
    (c : Coordinate F) (s : State F) (ps : List Page) (all : List Restaurant)
    (hfin : collectPages [] ps = PageOutcome.finished all) :
    ∃ x ∈ filterUniqueRestaurants lc all, ∀ later,
      getLocationAndFetchRestaurants lc r
          ({ geo := GeoOutcome.position c, search := SearchOutcome.pages ps } :: later) s =
        (cacheWritten lc c all, [Output.displayRestaurant x]) := by
  have hne : filterUniqueRestaurants lc all ≠ [] :=
    filterUniqueRestaurants_ne_nil lc (collectPages_finished_ne_nil ps [] all hfin)
  obtain ⟨x, hx, hex⟩ := pick_of_draw (filterUniqueRestaurants lc all) r hne h0 h1
  refine ⟨x, hx, fun later => ?_⟩
  rw [getLocationAndFetchRestaurants_eq]
  simp only [hfin]
  have hcw : (cacheWritten lc c all).cachedRestaurants = filterUniqueRestaurants lc all := rfl
  rw [hcw, hex]

theorem fetch_emits_one (lc : String → String) (r : ℚ) (h0 : 0 ≤ r) (h1 : r < 1)
    (env : FetchEnv F) (later : List (FetchEnv F)) (s : State F)
    (hdone : ∀ c ps, env.geo = GeoOutcome.position c → env.search = SearchOutcome.pages ps →
      collectPages [] ps ≠ PageOutcome.awaiting) :
    (∃ x, (getLocationAndFetchRestaurants lc r (env :: later) s).2 =
        [Output.displayRestaurant x]) ∨
    (∃ m, (getLocationAndFetchRestaurants lc r (env :: later) s).2 =
        [Output.displayError m]) := by
  obtain ⟨geo, search⟩ := env
  cases geo with
  | unsupported => exact Or.inr ⟨_, by rw [getLocationAndFetchRestaurants_eq]⟩
  | failed => exact Or.inr ⟨_, by rw [getLocationAndFetchRestaurants_eq]⟩
  | position c =>
    cases search with
    | threw m => exact Or.inr ⟨_, by rw [getLocationAndFetchRestaurants_eq]⟩
    | pages ps =>
      cases hc : collectPages [] ps with
      | awaiting => exact absurd hc (hdone c ps rfl rfl)
      | noResults =>
        refine Or.inr ⟨"No open restaurants found.", ?_⟩
        rw [getLocationAndFetchRestaurants_eq]
        simp only [hc]
      | finished all =>
        obtain ⟨x, _, hx⟩ := fetch_of_finished lc r h0 h1 c s ps all hc
        exact Or.inl ⟨x, by rw [hx later]⟩

/-- While a page that was asked for is outstanding the cycle has emitted nothing and has
left the state as it was. -/
theorem fetch_awaiting_silent (lc : String → String) (r : ℚ) (c : Coordinate F)
    (s : State F) (ps : List Page) (later : List (FetchEnv F))
    (hwait : collectPages [] ps = PageOutcome.awaiting) :
    getLocationAndFetchRestaurants lc r
        ({ geo := GeoOutcome.position c, search := SearchOutcome.pages ps } :: later) s =
      (s, []) := by
  rw [getLocationAndFetchRestaurants_eq]
  simp only [hwait]

end OutputLemmas

section IndexLemmas

theorem randomIndex_eq_iff (r : ℚ) (n i : ℕ) (hn : 0 < n) :
    randomIndex r n = (i : ℤ) ↔ (i : ℚ) / n ≤ r ∧ r < ((i : ℚ) + 1) / n := by
  have hpos : (0 : ℚ) < (n : ℚ) := by exact_mod_cast hn
  unfold randomIndex
  rw [Int.floor_eq_iff, div_le_iff₀ hpos, lt_div_iff₀ hpos]
  simp only [Int.cast_natCast]

theorem interval_subset_unit (r : ℚ) (n i : ℕ) (hn : 0 < n) (hi : i < n)
    (h : (i : ℚ) / n ≤ r ∧ r < ((i : ℚ) + 1) / n) : 0 ≤ r ∧ r < 1 := by
  have hpos : (0 : ℚ) < (n : ℚ) := by exact_mod_cast hn
  have hi' : (i : ℚ) + 1 ≤ (n : ℚ) := by exact_mod_cast hi
  constructor
  · exact le_trans (div_nonneg (Nat.cast_nonneg i) (le_of_lt hpos)) h.1
  · exact lt_of_lt_of_le h.2 ((div_le_one hpos).mpr hi')

theorem elementAt_natCast (xs : List Restaurant) (i : ℕ) :
    elementAt xs (i : ℤ) = xs[i]? := by
  simp [elementAt]

end IndexLemmas

theorem agree_cacheWritten {F : Type} (lc : String → String) (c : Coordinate F)
    {all : List Restaurant} (h : all ≠ []) : Agree (cacheWritten lc c all) :=
  ⟨Or.inr ⟨rfl, cacheWritten_nonempty lc c h⟩, rfl⟩

theorem agree_fetch {F : Type} (lc : String → String) (r : ℚ) (envs : List (FetchEnv F)) (s : State F)
    (h : Agree s) : Agree (getLocationAndFetchRestaurants lc r envs s).1 := by
  rcases fetch_state_cases lc r envs s with ⟨_, hs⟩ | ⟨c, all, _, hne, hs⟩
  · rw [hs]
    exact h
  · rw [hs]
    exact agree_cacheWritten lc c hne

section AgreeLemmas
variable {F : Type} [LinearOrder F]


theorem agree_step (lc : String → String) (dist : Coordinate F → Coordinate F → F)
    (thr : F) (s : State F) (h : Agree s) (input : Input F) :
    Agree (step lc dist thr s input).1 := by
  cases input with
  | pageLoad => exact ⟨Or.inl ⟨rfl, rfl⟩, rfl⟩
  | locationCheck geo =>
    cases geo with
    | unsupported => exact h
    | failed => exact h
    | position cur =>
      simp only [step]
      by_cases hsig : ∃ cached, s.cachedLocation = some cached ∧ dist cur cached > thr
      · obtain ⟨cached, hc, hd⟩ := hsig
        rw [check_of_significant dist thr s cached cur hc hd]
        exact ⟨Or.inl ⟨rfl, rfl⟩, rfl⟩
      · have hle : ∀ cached, s.cachedLocation = some cached → dist cur cached ≤ thr := by
          intro cached hc
          exact not_lt.mp fun hd => hsig ⟨cached, hc, hd⟩
        rw [check_of_not_significant dist thr s cur hle]
        exact ⟨h.1, rfl⟩
  | click r envs =>
    simp only [step, pickButtonClick]
    by_cases hpos : s.cachedRestaurants.length > 0
    · rw [if_pos hpos, display_state_of_nonempty _ r s hpos]
      exact h
    · rw [if_neg hpos]
      exact agree_fetch lc r envs s h
  | delayedDisplay r envs =>
    simp only [step]
    by_cases hpos : s.cachedRestaurants.length > 0
    · rw [display_state_of_nonempty _ r s hpos]
      exact h
    · rw [display_state_of_empty _ r s hpos]
      exact agree_fetch lc r envs s h
  | fetch r envs => exact agree_fetch lc r envs s h

theorem agree_foldl (lc : String → String) (dist : Coordinate F → Coordinate F → F)
    (thr : F) (inputs : List (Input F)) :
    ∀ s : State F, Agree s →
      Agree (inputs.foldl (fun s input => (step lc dist thr s input).1) s) := by
  induction inputs with
  | nil => intro s h; exact h
  | cons i rest ih =>
    intro s h
    simp only [List.foldl_cons]
    exact ih _ (agree_step lc dist thr s h i)

theorem agree_run (lc : String → String) (dist : Coordinate F → Coordinate F → F)
    (thr : F) (store : Store F) (inputs : List (Input F)) :
    Agree (run lc dist thr store inputs) :=
  agree_foldl lc dist thr inputs _ ⟨Or.inl ⟨rfl, rfl⟩, rfl⟩

theorem check_restaurants_cases (dist : Coordinate F → Coordinate F → F) (thr : F)
    (geo : GeoOutcome F) (s : State F) :
    (checkLocationForSignificantChanges dist thr geo s).1.cachedRestaurants =
        s.cachedRestaurants ∨
      (checkLocationForSignificantChanges dist thr geo s).1.cachedRestaurants = [] := by
  cases geo with
  | unsupported => exact Or.inl rfl
  | failed => exact Or.inl rfl
  | position cur =>
    by_cases hsig : ∃ cached, s.cachedLocation = some cached ∧ dist cur cached > thr
    · obtain ⟨cached, hc, hd⟩ := hsig
      rw [check_of_significant dist thr s cached cur hc hd]
      exact Or.inr rfl
    · have hle : ∀ cached, s.cachedLocation = some cached → dist cur cached ≤ thr := by
        intro cached hc
        exact not_lt.mp fun hd => hsig ⟨cached, hc, hd⟩
      rw [check_of_not_significant dist thr s cur hle]
      exact Or.inl rfl

theorem checks_keep_empty (lc : String → String) (dist : Coordinate F → Coordinate F → F)
    (thr : F) (checks : List (GeoOutcome F)) :
    ∀ s : State F, s.cachedRestaurants = [] →
      ((checks.map Input.locationCheck).foldl
        (fun s input => (step lc dist thr s input).1) s).cachedRestaurants = [] := by
  induction checks with
  | nil => intro s h; exact h
  | cons g rest ih =>
    intro s h
    simp only [List.map_cons, List.foldl_cons]
    apply ih
    show (checkLocationForSignificantChanges dist thr g s).1.cachedRestaurants = []
    rcases check_restaurants_cases dist thr g s with h1 | h1
    · rw [h1, h]
    · exact h1

end AgreeLemmas

theorem filterUnique_three (lc : String → String) (a b d : Restaurant)
    (hpair : lc a.name = lc b.name ∨ lc a.name = lc d.name ∨ lc b.name = lc d.name)
    (hnot : ¬ (lc a.name = lc b.name ∧ lc a.name = lc d.name)) :
    (filterUniqueRestaurants lc [a, b, d]).length = 2 := by
  by_cases hab : lc a.name = lc b.name
  · have had : ¬ lc a.name = lc d.name := fun h => hnot ⟨hab, h⟩
    have hda : ¬ lc d.name = lc a.name := fun h => had h.symm
    simp [filterUniqueRestaurants, filterUniqueFrom, hab.symm, hda]
  · have hba : ¬ lc b.name = lc a.name := fun h => hab h.symm
    by_cases had : lc a.name = lc d.name
    · simp [filterUniqueRestaurants, filterUniqueFrom, hba, had.symm]
    · have hbd : lc b.name = lc d.name := by
        rcases hpair with h | h | h
        · exact absurd h hab
        · exact absurd h had
        · exact h
      simp [filterUniqueRestaurants, filterUniqueFrom, hba, hbd.symm]

section AgreeReadings
variable {F : Type}

theorem agree_none_iff (s : State F) (h : Agree s) :
    s.localStorage.cachedRestaurants = none ↔ s.cachedRestaurants = [] := by
  rcases h.1 with ⟨h1, h2⟩ | ⟨h1, h2⟩
  · exact ⟨fun _ => h2, fun _ => h1⟩
  · constructor
    · intro hn
      rw [h1] at hn
      cases hn
    · intro he
      exact absurd he h2

theorem agree_some (s : State F) (h : Agree s) :
    ∀ v, s.localStorage.cachedRestaurants = some v → v = s.cachedRestaurants := by
  intro v hv
  rcases h.1 with ⟨h1, _⟩ | ⟨h1, _⟩
  · rw [h1] at hv
    cases hv
  · rw [h1] at hv
    cases hv
    rfl

theorem agree_getCachedRestaurants (s : State F) (h : Agree s) :
    getCachedRestaurants s.localStorage = s.cachedRestaurants := by
  unfold getCachedRestaurants
  rcases h.1 with ⟨h1, h2⟩ | ⟨h1, _⟩
  · rw [h1, h2]
  · rw [h1]

theorem agree_getCachedLocation (s : State F) (h : Agree s) :
    getCachedLocation s.localStorage = s.cachedLocation := by
  unfold getCachedLocation
  rw [h.2]
  cases s.cachedLocation <;> rfl

end AgreeReadings

/-! ## Lemmas on rounding to double precision -/

theorem roundHalfEven_intCast (n : ℤ) : roundHalfEven (n : ℚ) = n := by
  unfold roundHalfEven
  simp

theorem floor_le_roundHalfEven (x : ℚ) : ⌊x⌋ ≤ roundHalfEven x := by
  unfold roundHalfEven
  split_ifs <;> omega

theorem roundHalfEven_le_floor_add_one (x : ℚ) : roundHalfEven x ≤ ⌊x⌋ + 1 := by
  unfold roundHalfEven
  split_ifs <;> omega

theorem roundHalfEven_sub_le (x : ℚ) : (roundHalfEven x : ℚ) - x ≤ 1 / 2 := by
  have h1 := Int.floor_le x
  have h2 := Int.lt_floor_add_one x
  unfold roundHalfEven
  split_ifs with ha hb hc
  · linarith
  · push_cast
    linarith
  · linarith
  · push_cast
    linarith

theorem sub_roundHalfEven_le (x : ℚ) : x - (roundHalfEven x : ℚ) ≤ 1 / 2 := by
  have h1 := Int.floor_le x
  have h2 := Int.lt_floor_add_one x
  unfold roundHalfEven
  split_ifs with ha hb hc
  · linarith
  · push_cast
    linarith
  · linarith
  · push_cast
    linarith

theorem roundHalfEven_mono {x y : ℚ} (h : x ≤ y) : roundHalfEven x ≤ roundHalfEven y := by
  have hf : ⌊x⌋ ≤ ⌊y⌋ := Int.floor_le_floor h
  rcases lt_or_eq_of_le hf with hlt | heq
  · calc roundHalfEven x ≤ ⌊x⌋ + 1 := roundHalfEven_le_floor_add_one x
      _ ≤ ⌊y⌋ := hlt
      _ ≤ roundHalfEven y := floor_le_roundHalfEven y
  · unfold roundHalfEven
    rw [← heq]
    split_ifs with a1 a2 a3 b1 b2 b3 b4 b5 b6 <;> first | omega | (exfalso; linarith)

theorem roundHalfEven_le_of_le_intCast {x : ℚ} {n : ℤ} (h : x ≤ (n : ℚ)) :
    roundHalfEven x ≤ n := by
  have := roundHalfEven_mono h
  rwa [roundHalfEven_intCast] at this

theorem le_roundHalfEven_of_intCast_le {x : ℚ} {n : ℤ} (h : (n : ℚ) ≤ x) :
    n ≤ roundHalfEven x := by
  have := roundHalfEven_mono h
  rwa [roundHalfEven_intCast] at this

theorem two_zpow_mul (a b : ℤ) : (2 : ℚ) ^ a * (2 : ℚ) ^ b = (2 : ℚ) ^ (a + b) :=
  (zpow_add₀ (two_ne_zero) a b).symm

theorem doubleSpacing_pos (x : ℚ) : 0 < doubleSpacing x :=
  zpow_pos (by norm_num) _

theorem zpow_log_le {x : ℚ} (hx : 0 < x) : (2 : ℚ) ^ Int.log 2 x ≤ x := by
  have h := Int.zpow_log_le_self (b := 2) (by norm_num) hx
  simpa using h

theorem lt_zpow_log_succ (x : ℚ) : x < (2 : ℚ) ^ (Int.log 2 x + 1) := by
  have h := Int.lt_zpow_succ_log_self (b := 2) (by norm_num) x
  simpa using h

theorem doubleSpacing_of_pos {x : ℚ} (hx : 0 < x) :
    doubleSpacing x = (2 : ℚ) ^ (max (Int.log 2 x) (-1022) - 52) := by
  unfold doubleSpacing
  rw [abs_of_pos hx]

theorem toDouble_of_pos {x : ℚ} (hx : 0 < x) :
    toDouble x = (roundHalfEven (x / doubleSpacing x) : ℚ) * doubleSpacing x := by
  unfold toDouble
  rw [if_neg (ne_of_gt hx)]

/-- The significand of a positive number is below `2 ^ 53`. -/
theorem quotient_lt {x : ℚ} (hx : 0 < x) : x / doubleSpacing x < (2 : ℚ) ^ (53 : ℤ) := by
  rw [div_lt_iff₀ (doubleSpacing_pos x), doubleSpacing_of_pos hx, two_zpow_mul]
  calc x < (2 : ℚ) ^ (Int.log 2 x + 1) := lt_zpow_log_succ x
    _ ≤ (2 : ℚ) ^ (53 + (max (Int.log 2 x) (-1022) - 52)) :=
        zpow_le_zpow_right₀ (by norm_num) (by
          have := le_max_left (Int.log 2 x) (-1022)
          omega)

/-- The significand of a number in the normal range is at least `2 ^ 52`. -/
theorem le_quotient {x : ℚ} (hx : 0 < x) (hn : -1022 ≤ Int.log 2 x) :
    (2 : ℚ) ^ (52 : ℤ) ≤ x / doubleSpacing x := by
  rw [le_div_iff₀ (doubleSpacing_pos x), doubleSpacing_of_pos hx, two_zpow_mul,
    max_eq_left hn]
  have : (52 : ℤ) + (Int.log 2 x - 52) = Int.log 2 x := by ring
  rw [this]
  exact zpow_log_le hx

theorem toDouble_nonneg {x : ℚ} (hx : 0 ≤ x) : 0 ≤ toDouble x := by
  rcases eq_or_lt_of_le hx with h0 | hpos
  · rw [← h0]
    simp [toDouble]
  · rw [toDouble_of_pos hpos]
    apply mul_nonneg _ (le_of_lt (doubleSpacing_pos x))
    have h : ((0 : ℤ) : ℚ) ≤ x / doubleSpacing x := by
      simpa using div_nonneg hx (le_of_lt (doubleSpacing_pos x))
    exact_mod_cast le_roundHalfEven_of_intCast_le h

theorem toDouble_le_binade {x : ℚ} (hx : 0 < x) :
    toDouble x ≤ (2 : ℚ) ^ (max (Int.log 2 x) (-1022) + 1) := by
  rw [toDouble_of_pos hx]
  have h53 : (((2 : ℤ) ^ 53 : ℤ) : ℚ) = (2 : ℚ) ^ (53 : ℤ) := by norm_num
  have h : x / doubleSpacing x ≤ (((2 : ℤ) ^ 53 : ℤ) : ℚ) := by
    rw [h53]
    exact le_of_lt (quotient_lt hx)
  have hr : (roundHalfEven (x / doubleSpacing x) : ℚ) ≤ (2 : ℚ) ^ (53 : ℤ) := by
    rw [← h53]
    exact Int.cast_le.mpr (roundHalfEven_le_of_le_intCast h)
  calc (roundHalfEven (x / doubleSpacing x) : ℚ) * doubleSpacing x
      ≤ (2 : ℚ) ^ (53 : ℤ) * doubleSpacing x :=
        mul_le_mul_of_nonneg_right hr (le_of_lt (doubleSpacing_pos x))
    _ = (2 : ℚ) ^ (max (Int.log 2 x) (-1022) + 1) := by
        rw [doubleSpacing_of_pos hx, two_zpow_mul]
        congr 1
        ring

theorem binade_le_toDouble {x : ℚ} (hx : 0 < x) (hn : -1022 ≤ Int.log 2 x) :
    (2 : ℚ) ^ Int.log 2 x ≤ toDouble x := by
  rw [toDouble_of_pos hx]
  have h52 : (((2 : ℤ) ^ 52 : ℤ) : ℚ) = (2 : ℚ) ^ (52 : ℤ) := by norm_num
  have h : (((2 : ℤ) ^ 52 : ℤ) : ℚ) ≤ x / doubleSpacing x := by
    rw [h52]
    exact le_quotient hx hn
  have hr : (2 : ℚ) ^ (52 : ℤ) ≤ (roundHalfEven (x / doubleSpacing x) : ℚ) := by
    rw [← h52]
    exact Int.cast_le.mpr (le_roundHalfEven_of_intCast_le h)
  calc (2 : ℚ) ^ Int.log 2 x = (2 : ℚ) ^ (52 : ℤ) * doubleSpacing x := by
        rw [doubleSpacing_of_pos hx, two_zpow_mul, max_eq_left hn]
        congr 1
        ring
    _ ≤ (roundHalfEven (x / doubleSpacing x) : ℚ) * doubleSpacing x :=
        mul_le_mul_of_nonneg_right hr (le_of_lt (doubleSpacing_pos x))

/-- Rounding to a double keeps the order of non-negative numbers. -/
theorem toDouble_mono {x y : ℚ} (hx : 0 ≤ x) (h : x ≤ y) : toDouble x ≤ toDouble y := by
  rcases eq_or_lt_of_le hx with h0 | hpos
  · rw [← h0]
    have : toDouble 0 = 0 := by simp [toDouble]
    rw [this]
    exact toDouble_nonneg (le_trans hx h)
  · have hypos : 0 < y := lt_of_lt_of_le hpos h
    have hlog : Int.log 2 x ≤ Int.log 2 y := Int.log_mono_right hpos h
    have hE : max (Int.log 2 x) (-1022) ≤ max (Int.log 2 y) (-1022) :=
      max_le_max hlog (le_refl _)
    rcases eq_or_lt_of_le hE with heq | hlt
    · have hq : doubleSpacing x = doubleSpacing y := by
        rw [doubleSpacing_of_pos hpos, doubleSpacing_of_pos hypos, heq]
      rw [toDouble_of_pos hpos, toDouble_of_pos hypos, hq]
      apply mul_le_mul_of_nonneg_right _ (le_of_lt (doubleSpacing_pos y))
      have : x / doubleSpacing y ≤ y / doubleSpacing y :=
        div_le_div_of_nonneg_right h (le_of_lt (doubleSpacing_pos y))
      exact_mod_cast roundHalfEven_mono this
    · have hn : -1022 ≤ Int.log 2 y := by
        by_contra hcon
        have h1 : max (Int.log 2 y) (-1022) = -1022 := max_eq_right (by omega)
        have h2 := le_max_right (Int.log 2 x) (-1022)
        omega
      have hEy : max (Int.log 2 y) (-1022) = Int.log 2 y := max_eq_left hn
      calc toDouble x ≤ (2 : ℚ) ^ (max (Int.log 2 x) (-1022) + 1) := toDouble_le_binade hpos
        _ ≤ (2 : ℚ) ^ Int.log 2 y := zpow_le_zpow_right₀ (by norm_num) (by omega)
        _ ≤ toDouble y := binade_le_toDouble hypos hn

theorem log_lt_of_lt_zpow {x : ℚ} (hx : 0 < x) {z : ℤ} (h : x < (2 : ℚ) ^ z) :
    Int.log 2 x < z := by
  have := (Int.lt_zpow_iff_log_lt (b := 2) (by norm_num) hx (x := z)).mp (by simpa using h)
  exact this

theorem le_log_of_zpow_le {x : ℚ} (hx : 0 < x) {z : ℤ} (h : (2 : ℚ) ^ z ≤ x) :
    z ≤ Int.log 2 x := by
  have := (Int.zpow_le_iff_le_log (b := 2) (by norm_num) hx (x := z)).mp (by simpa using h)
  exact this

/-- A fraction `k / 2 ^ m` with `k < 2 ^ 53` and `m ≤ 1074` is a double. -/
theorem toDouble_dyadic (k m : ℕ) (hk : k < 2 ^ 53) (hm : m ≤ 1074) :
    toDouble ((k : ℚ) / 2 ^ m) = (k : ℚ) / 2 ^ m := by
  rcases Nat.eq_zero_or_pos k with h0 | hkpos
  · subst h0
    simp [toDouble]
  · have hx : (0 : ℚ) < (k : ℚ) / 2 ^ m := by positivity
    have hlt : (k : ℚ) / 2 ^ m < (2 : ℚ) ^ ((53 : ℤ) - (m : ℤ)) := by
      rw [zpow_sub₀ two_ne_zero, zpow_natCast]
      apply div_lt_div_of_pos_right _ (by positivity)
      have h53 : (2 : ℚ) ^ (53 : ℤ) = ((2 ^ 53 : ℕ) : ℚ) := by norm_num
      rw [h53]
      exact Nat.cast_lt.mpr hk
    have hlog := log_lt_of_lt_zpow hx hlt
    have hE : max (Int.log 2 ((k : ℚ) / 2 ^ m)) (-1022) ≤ 52 - (m : ℤ) := by
      apply max_le
      · omega
      · omega
    obtain ⟨n, hn⟩ := Int.eq_ofNat_of_zero_le
      (show 0 ≤ 52 - (m : ℤ) - max (Int.log 2 ((k : ℚ) / 2 ^ m)) (-1022) by omega)
    have hz : (k : ℚ) / 2 ^ m / doubleSpacing ((k : ℚ) / 2 ^ m) = ((k * 2 ^ n : ℤ) : ℚ) := by
      rw [doubleSpacing_of_pos hx, div_div, ← zpow_natCast (2 : ℚ) m, two_zpow_mul,
        div_eq_mul_inv, ← zpow_neg]
      have hexp : -((m : ℤ) + (max (Int.log 2 ((k : ℚ) / (2 : ℚ) ^ (m : ℤ))) (-1022) - 52)) =
          (n : ℤ) := by
        rw [zpow_natCast] at *
        omega
      rw [hexp, zpow_natCast]
      push_cast
      ring
    rw [toDouble_of_pos hx, hz, roundHalfEven_intCast, ← hz,
      div_mul_cancel₀ _ (ne_of_gt (doubleSpacing_pos _))]

theorem toDouble_natCast (n : ℕ) (hn : n < 2 ^ 53) : toDouble (n : ℚ) = (n : ℚ) := by
  have := toDouble_dyadic n 0 hn (by norm_num)
  simpa using this

theorem toDouble_add_half (n : ℕ) (hn : n < 2 ^ 32) :
    toDouble ((n : ℚ) + 1 / 2) = (n : ℚ) + 1 / 2 := by
  have h := toDouble_dyadic (2 * n + 1) 1 (by omega) (by norm_num)
  have e : (((2 * n + 1 : ℕ) : ℚ)) / 2 ^ 1 = (n : ℚ) + 1 / 2 := by
    push_cast
    ring
  rwa [e] at h

/-- A rounded value of at least 1 exceeds the exact one by a factor of at most
`1 + 2 ^ (-53)`. -/
theorem toDouble_le_mul {x : ℚ} (hx : 0 < x) (h1 : 1 ≤ toDouble x) :
    toDouble x ≤ x * (1 + (2 : ℚ) ^ (-53 : ℤ)) := by
  have hn : -1022 ≤ Int.log 2 x := by
    by_contra hcon
    have hE : max (Int.log 2 x) (-1022) = -1022 := max_eq_right (by omega)
    have hle := toDouble_le_binade hx
    rw [hE] at hle
    have hsmall : (2 : ℚ) ^ ((-1022 : ℤ) + 1) < 1 := by
      have : (2 : ℚ) ^ ((-1022 : ℤ) + 1) ≤ (2 : ℚ) ^ (-1 : ℤ) :=
        zpow_le_zpow_right₀ (by norm_num) (by norm_num)
      have h2 : (2 : ℚ) ^ (-1 : ℤ) < 1 := by norm_num
      linarith
    linarith
  have hq : doubleSpacing x ≤ x * (2 : ℚ) ^ (-52 : ℤ) := by
    rw [doubleSpacing_of_pos hx, max_eq_left hn]
    have : (2 : ℚ) ^ (Int.log 2 x - 52) = (2 : ℚ) ^ Int.log 2 x * (2 : ℚ) ^ (-52 : ℤ) := by
      rw [two_zpow_mul]
      congr 1
    rw [this]
    exact mul_le_mul_of_nonneg_right (zpow_log_le hx) (le_of_lt (zpow_pos (by norm_num) _))
  have herr := roundHalfEven_sub_le (x / doubleSpacing x)
  have hqpos := doubleSpacing_pos x
  have hmul : ((roundHalfEven (x / doubleSpacing x) : ℚ) - x / doubleSpacing x) *
      doubleSpacing x ≤ 1 / 2 * doubleSpacing x :=
    mul_le_mul_of_nonneg_right herr (le_of_lt hqpos)
  rw [sub_mul, div_mul_cancel₀ _ (ne_of_gt hqpos)] at hmul
  rw [toDouble_of_pos hx]
  have h53 : (2 : ℚ) ^ (-53 : ℤ) = 1 / 2 * (2 : ℚ) ^ (-52 : ℤ) := by
    rw [show (-53 : ℤ) = -1 + -52 by norm_num, ← two_zpow_mul]
    norm_num
  rw [h53]
  generalize (2 : ℚ) ^ (-52 : ℤ) = p at hq ⊢
  generalize (roundHalfEven (x / doubleSpacing x) : ℚ) * doubleSpacing x = w at hmul ⊢
  generalize doubleSpacing x = q at hq hmul
  have hexp : x * (1 + 1 / 2 * p) = x + 1 / 2 * (x * p) := by ring
  rw [hexp]
  linarith

/-! ## Lemmas on the index of line 113 in double precision -/

theorem product_bounds (r : ℚ) (N i : ℕ) (hN : 0 < N)
    (h : (i : ℚ) / N ≤ r ∧ r < ((i : ℚ) + 1) / N) :
    (i : ℚ) ≤ r * N ∧ r * N < (i : ℚ) + 1 := by
  have hpos : (0 : ℚ) < (N : ℚ) := by exact_mod_cast hN
  exact ⟨(div_le_iff₀ hpos).mp h.1, (lt_div_iff₀ hpos).mp h.2⟩

theorem toDouble_succ (i : ℕ) (hi : i + 1 < 2 ^ 53) :
    toDouble ((i : ℚ) + 1) = (i : ℚ) + 1 := by
  have := toDouble_natCast (i + 1) hi
  simpa using this

theorem floor_of_mem_unit (y : ℚ) (i : ℕ) (h0 : (i : ℚ) ≤ y) (h1 : y ≤ (i : ℚ) + 1) :
    (⌊y⌋ = (i : ℤ) ∨ ⌊y⌋ = (i : ℤ) + 1) ∧ (⌊y⌋ = (i : ℤ) + 1 ↔ y = (i : ℚ) + 1) := by
  rcases eq_or_lt_of_le h1 with heq | hlt
  · have hf : ⌊y⌋ = (i : ℤ) + 1 := by
      rw [heq]
      have : ((i : ℚ) + 1) = (((i : ℤ) + 1 : ℤ) : ℚ) := by push_cast; ring
      rw [this, Int.floor_intCast]
    exact ⟨Or.inr hf, fun _ => heq, fun _ => hf⟩
  · have hf : ⌊y⌋ = (i : ℤ) := by
      rw [Int.floor_eq_iff]
      exact ⟨by simpa using h0, by simpa using hlt⟩
    refine ⟨Or.inl hf, fun h => ?_, fun h => ?_⟩
    · rw [hf] at h
      omega
    · rw [h] at hlt
      exact absurd hlt (lt_irrefl _)

/-- A draw of `[i / N, (i + 1) / N)` selects `i`, or `i + 1` when the product rounds up to
that integer. -/
theorem indexDouble_of_mem (r : ℚ) (N i : ℕ) (hN : 0 < N) (hN32 : N < 2 ^ 32) (hi : i < N)
    (h : (i : ℚ) / N ≤ r ∧ r < ((i : ℚ) + 1) / N) :
    (randomIndexDouble r N = (i : ℤ) ∨ randomIndexDouble r N = (i : ℤ) + 1) ∧
    (randomIndexDouble r N = (i : ℤ) + 1 ↔ toDouble (r * N) = (i : ℚ) + 1) := by
  obtain ⟨hlo, hhi⟩ := product_bounds r N i hN h
  have hi0 : (0 : ℚ) ≤ (i : ℚ) := Nat.cast_nonneg i
  have h1 : (i : ℚ) ≤ toDouble (r * N) := by
    have := toDouble_mono hi0 hlo
    rwa [toDouble_natCast i (by omega)] at this
  have h2 : toDouble (r * N) ≤ (i : ℚ) + 1 := by
    have := toDouble_mono (le_trans hi0 hlo) (le_of_lt hhi)
    rwa [toDouble_succ i (by omega)] at this
  exact floor_of_mem_unit _ i h1 h2

/-- A draw that selects `i` lies below `(i + 1) / N` and not below
`i / (N * (1 + 2 ^ (-53)))`. -/
theorem mem_of_indexDouble (r : ℚ) (N i : ℕ) (hN : 0 < N) (hN32 : N < 2 ^ 32) (hi : i < N)
    (hr : 0 ≤ r) (h : randomIndexDouble r N = (i : ℤ)) :
    (i : ℚ) / (N * (1 + (2 : ℚ) ^ (-53 : ℤ))) ≤ r ∧ r < ((i : ℚ) + 1) / N := by
  have hpos : (0 : ℚ) < (N : ℚ) := by exact_mod_cast hN
  have heps : (0 : ℚ) < 1 + (2 : ℚ) ^ (-53 : ℤ) := by positivity
  have hrN : (0 : ℚ) ≤ r * N := mul_nonneg hr (le_of_lt hpos)
  unfold randomIndexDouble at h
  rw [Int.floor_eq_iff] at h
  obtain ⟨hy0, hy1⟩ := h
  have hy0' : (i : ℚ) ≤ toDouble (r * N) := by simpa using hy0
  have hy1' : toDouble (r * N) < (i : ℚ) + 1 := by simpa using hy1
  constructor
  · rw [div_le_iff₀ (mul_pos hpos heps)]
    rcases Nat.eq_zero_or_pos i with h0 | hipos
    · subst h0
      simp only [Nat.cast_zero]
      exact mul_nonneg hr (le_of_lt (mul_pos hpos heps))
    · have hone : (1 : ℚ) ≤ toDouble (r * N) :=
        le_trans (by exact_mod_cast hipos) hy0'
      have hprod : 0 < r * N := by
        rcases eq_or_lt_of_le hrN with hz | hp
        · rw [← hz] at hone
          simp [toDouble] at hone
          linarith
        · exact hp
      have := toDouble_le_mul hprod hone
      calc (i : ℚ) ≤ toDouble (r * N) := hy0'
        _ ≤ r * N * (1 + (2 : ℚ) ^ (-53 : ℤ)) := this
        _ = r * (N * (1 + (2 : ℚ) ^ (-53 : ℤ))) := by ring
  · rw [lt_div_iff₀ hpos]
    by_contra hcon
    have hge : (i : ℚ) + 1 ≤ r * N := not_lt.mp hcon
    have := toDouble_mono (by positivity) hge
    rw [toDouble_succ i (by omega)] at this
    linarith

/-- A product between `i` and `i + 1 / 2` is rounded within that range. -/
theorem indexDouble_of_lower_half (r : ℚ) (N i : ℕ) (hN32 : N < 2 ^ 32) (hi : i < N)
    (hlo : (i : ℚ) ≤ r * N) (hhi : r * N ≤ (i : ℚ) + 1 / 2) :
    randomIndexDouble r N = (i : ℤ) := by
  have hi0 : (0 : ℚ) ≤ (i : ℚ) := Nat.cast_nonneg i
  have h1 : (i : ℚ) ≤ toDouble (r * N) := by
    have := toDouble_mono hi0 hlo
    rwa [toDouble_natCast i (by omega)] at this
  have h2 : toDouble (r * N) ≤ (i : ℚ) + 1 / 2 := by
    have := toDouble_mono (le_trans hi0 hlo) hhi
    rwa [toDouble_add_half i (by omega)] at this
  unfold randomIndexDouble
  rw [Int.floor_eq_iff]
  constructor
  · simpa using h1
  · have : toDouble (r * N) < (i : ℚ) + 1 := by linarith
    simpa using this

/-- The double `⌈i * 2 ^ 33 / N⌉ / 2 ^ 33` is a draw of `[0, 1)` that selects `i`. -/
theorem exists_double_draw (N i : ℕ) (hN : 0 < N) (hN32 : N < 2 ^ 32) (hi : i < N) :
    IsDouble ((((i * 2 ^ 33 + (N - 1)) / N : ℕ) : ℚ) / 2 ^ 33) ∧
    0 ≤ (((i * 2 ^ 33 + (N - 1)) / N : ℕ) : ℚ) / 2 ^ 33 ∧
    (((i * 2 ^ 33 + (N - 1)) / N : ℕ) : ℚ) / 2 ^ 33 < 1 ∧
    randomIndexDouble ((((i * 2 ^ 33 + (N - 1)) / N : ℕ) : ℚ) / 2 ^ 33) N = (i : ℤ) := by
  set k : ℕ := (i * 2 ^ 33 + (N - 1)) / N with hk
  have hpos : (0 : ℚ) < (N : ℚ) := by exact_mod_cast hN
  have hkle : k * N ≤ i * 2 ^ 33 + (N - 1) := Nat.div_mul_le_self _ _
  have hkge : i * 2 ^ 33 ≤ k * N := by
    have h := Nat.lt_succ_of_le (le_refl (i * 2 ^ 33 + (N - 1)))
    have h2 : i * 2 ^ 33 + (N - 1) < (k + 1) * N := by
      rw [hk, Nat.add_mul, Nat.one_mul]
      have := Nat.div_add_mod (i * 2 ^ 33 + (N - 1)) N
      have hmod := Nat.mod_lt (i * 2 ^ 33 + (N - 1)) hN
      rw [Nat.mul_comm] at this
      omega
    rw [Nat.add_mul, Nat.one_mul] at h2
    omega
  have hk53 : k < 2 ^ 53 := by
    have h1 : k * N < 2 ^ 53 * N := by
      have h33 : i * 2 ^ 33 + (N - 1) < 2 ^ 53 * N := by
        have : i * 2 ^ 33 + 2 ^ 33 ≤ N * 2 ^ 33 := by
          have := Nat.mul_le_mul_right (2 ^ 33) (Nat.succ_le_of_lt hi)
          rw [Nat.succ_mul] at this
          exact this
        have h2 : N * 2 ^ 33 ≤ 2 ^ 53 * N := by
          rw [Nat.mul_comm]
          exact Nat.mul_le_mul_right N (by norm_num)
        omega
      omega
    exact Nat.lt_of_mul_lt_mul_right h1
  have hlo : (i : ℚ) ≤ (k : ℚ) / 2 ^ 33 * N := by
    rw [div_mul_eq_mul_div, le_div_iff₀ (by positivity)]
    exact_mod_cast hkge
  have hhi : (k : ℚ) / 2 ^ 33 * N ≤ (i : ℚ) + 1 / 2 := by
    rw [div_mul_eq_mul_div, div_le_iff₀ (by positivity)]
    have h1 : ((k * N : ℕ) : ℚ) ≤ ((i * 2 ^ 33 + (N - 1) : ℕ) : ℚ) := Nat.cast_le.mpr hkle
    have h2 : ((i * 2 ^ 33 + (N - 1) : ℕ) : ℚ) ≤ ((i * 2 ^ 33 + 2 ^ 32 : ℕ) : ℚ) :=
      Nat.cast_le.mpr (by omega)
    push_cast at h1 h2
    have h3 : ((i : ℚ) + 1 / 2) * 2 ^ 33 = (i : ℚ) * 2 ^ 33 + 2 ^ 32 := by ring
    rw [h3]
    linarith
  refine ⟨toDouble_dyadic k 33 hk53 (by norm_num), by positivity, ?_,
    indexDouble_of_lower_half _ N i hN32 hi hlo hhi⟩
  have hlt : (k : ℚ) / 2 ^ 33 * N < (N : ℚ) := by
    have : (i : ℚ) + 1 ≤ (N : ℚ) := by exact_mod_cast hi
    linarith
  by_contra hcon
  have hge : (1 : ℚ) ≤ (k : ℚ) / 2 ^ 33 := not_lt.mp hcon
  have := mul_le_mul_of_nonneg_right hge (le_of_lt hpos)
  linarith

/-- A draw of `[i / N, (i + 1) / (N * (1 + 2 ^ (-53))))` selects `i`. -/
theorem indexDouble_of_inner (r : ℚ) (N i : ℕ) (hN : 0 < N) (hN32 : N < 2 ^ 32) (hi : i < N)
    (hlo : (i : ℚ) / N ≤ r) (hhi : r < ((i : ℚ) + 1) / (N * (1 + (2 : ℚ) ^ (-53 : ℤ)))) :
    randomIndexDouble r N = (i : ℤ) := by
  have hpos : (0 : ℚ) < (N : ℚ) := by exact_mod_cast hN
  have heps : (0 : ℚ) < 1 + (2 : ℚ) ^ (-53 : ℤ) := by positivity
  have hi0 : (0 : ℚ) ≤ (i : ℚ) := Nat.cast_nonneg i
  have hlo' : (i : ℚ) ≤ r * N := (div_le_iff₀ hpos).mp hlo
  have hhi' : r * N * (1 + (2 : ℚ) ^ (-53 : ℤ)) < (i : ℚ) + 1 := by
    have := (lt_div_iff₀ (mul_pos hpos heps)).mp hhi
    calc r * N * (1 + (2 : ℚ) ^ (-53 : ℤ)) = r * (N * (1 + (2 : ℚ) ^ (-53 : ℤ))) := by ring
      _ < (i : ℚ) + 1 := this
  have hlt : r * N < (i : ℚ) + 1 := by
    have h53 : (0 : ℚ) < (2 : ℚ) ^ (-53 : ℤ) := by positivity
    have hrN : 0 ≤ r * N := le_trans hi0 hlo'
    nlinarith
  have h1 : (i : ℚ) ≤ toDouble (r * N) := by
    have := toDouble_mono hi0 hlo'
    rwa [toDouble_natCast i (by omega)] at this
  have h2 : toDouble (r * N) ≤ (i : ℚ) + 1 := by
    have := toDouble_mono (le_trans hi0 hlo') (le_of_lt hlt)
    rwa [toDouble_succ i (by omega)] at this
  have h3 : toDouble (r * N) ≠ (i : ℚ) + 1 := by
    intro heq
    have hone : (1 : ℚ) ≤ toDouble (r * N) := by
      rw [heq]
      linarith
    have hprod : 0 < r * N := by
      rcases eq_or_lt_of_le (le_trans hi0 hlo') with hz | hp
      · rw [← hz] at hone
        simp [toDouble] at hone
        linarith
      · exact hp
    have := toDouble_le_mul hprod hone
    rw [heq] at this
    linarith
  unfold randomIndexDouble
  rw [Int.floor_eq_iff]
  constructor
  · simpa using h1
  · have : toDouble (r * N) < (i : ℚ) + 1 := lt_of_le_of_ne h2 h3
    simpa using this

theorem drawBelowTwoThirds_isDouble : IsDouble drawBelowTwoThirds := by
  have h := toDouble_dyadic 6004799503160661 53 (by norm_num) (by norm_num)
  unfold IsDouble drawBelowTwoThirds
  exact_mod_cast h

theorem drawBelowTwoThirds_product :
    toDouble (drawBelowTwoThirds * ((3 : ℕ) : ℚ)) = 2 := by
  have hval : drawBelowTwoThirds * ((3 : ℕ) : ℚ) = 18014398509481983 / 2 ^ 53 := by
    unfold drawBelowTwoThirds
    norm_num
  rw [hval]
  have hx : (0 : ℚ) < 18014398509481983 / 2 ^ 53 := by norm_num
  have hlog : Int.log 2 ((18014398509481983 : ℚ) / 2 ^ 53) = 0 := by
    have h1 := le_log_of_zpow_le hx (show (2 : ℚ) ^ (0 : ℤ) ≤ 18014398509481983 / 2 ^ 53 by
      norm_num)
    have h2 := log_lt_of_lt_zpow hx (show (18014398509481983 : ℚ) / 2 ^ 53 < (2 : ℚ) ^ (1 : ℤ) by
      norm_num)
    omega
  have hq : doubleSpacing ((18014398509481983 : ℚ) / 2 ^ 53) = 1 / 2 ^ 52 := by
    rw [doubleSpacing_of_pos hx, hlog]
    norm_num
  have hquot : (18014398509481983 : ℚ) / 2 ^ 53 / (1 / 2 ^ 52) = 18014398509481983 / 2 := by
    norm_num
  have hfloor : ⌊(18014398509481983 : ℚ) / 2⌋ = 9007199254740991 := by
    rw [Int.floor_eq_iff]
    norm_num
  have hround : roundHalfEven ((18014398509481983 : ℚ) / 2) = 9007199254740992 := by
    unfold roundHalfEven
    rw [hfloor]
    norm_num
  rw [toDouble_of_pos hx, hq, hquot, hround]
  norm_num

theorem drawBelowTwoThirds_index : randomIndexDouble drawBelowTwoThirds 3 = 2 := by
  unfold randomIndexDouble
  rw [drawBelowTwoThirds_product]
  norm_num

theorem drawBelowTwoThirds_exact : randomIndex drawBelowTwoThirds 3 = 1 := by
  unfold randomIndex drawBelowTwoThirds
  rw [Int.floor_eq_iff]
  norm_num

/-! ## Lemmas on the computed distance -/

theorem calculateDistanceWith_realMath (a b : Coordinate ℝ) :
    calculateDistanceWith realMath a b = calculateDistance a b := by
  simp only [calculateDistanceWith, realMath, calculateDistance, haversineTerm]
  norm_num

theorem not_gt_NaN (t : JSNumber) : ¬ NaN > t := by
  unfold NaN
  exact not_lt_bot

/-! ## The index with the exact product -/

/-- With the product taken exactly, the draws of `[0, 1)` for which the index is `i` are
those of `[i / N, (i + 1) / N)`, an interval of length `1 / N` that contains `i / N`. -/
theorem randomIndex_exact_preimage (N i : ℕ) (hN : 0 < N) (hi : i < N) :
    {r : ℚ | 0 ≤ r ∧ r < 1 ∧ randomIndex r N = (i : ℤ)} =
      Set.Ico ((i : ℚ) / N) (((i : ℚ) + 1) / N) ∧
    (0 ≤ (i : ℚ) / N ∧ (i : ℚ) / N < 1 ∧ randomIndex ((i : ℚ) / N) N = (i : ℤ)) ∧
    ((i : ℚ) + 1) / N - (i : ℚ) / N = 1 / N ∧
    (∀ {F : Type} (fetch : State F → State F × List Output) (s : State F) (r : ℚ),
      s.cachedRestaurants.length = N → r ∈ Set.Ico ((i : ℚ) / N) (((i : ℚ) + 1) / N) →
      ∃ x, s.cachedRestaurants[i]? = some x ∧
        displayRandomRestaurantFromCache fetch r s = (s, [Output.displayRestaurant x])) := by
  have hpos : (0 : ℚ) < (N : ℚ) := by exact_mod_cast hN
  have hself : (i : ℚ) / N ≤ (i : ℚ) / N ∧ (i : ℚ) / N < ((i : ℚ) + 1) / N :=
    ⟨le_refl _, div_lt_div_of_pos_right (lt_add_one _) hpos⟩
  refine ⟨?_, ?_, ?_, ?_⟩
  · ext r
    simp only [Set.mem_setOf_eq, Set.mem_Ico]
    constructor
    · rintro ⟨_, _, hidx⟩
      exact (randomIndex_eq_iff r N i hN).mp hidx
    · intro h
      obtain ⟨h0, h1⟩ := interval_subset_unit r N i hN hi h
      exact ⟨h0, h1, (randomIndex_eq_iff r N i hN).mpr h⟩
  · obtain ⟨h0, h1⟩ := interval_subset_unit _ N i hN hi hself
    exact ⟨h0, h1, (randomIndex_eq_iff _ N i hN).mpr hself⟩
  · rw [← sub_div]
    ring
  · intro F fetch s r hlen hr
    have hne : s.cachedRestaurants ≠ [] := by
      intro hnil
      rw [hnil] at hlen
      simp only [List.length_nil] at hlen
      omega
    have hidx : randomIndex r s.cachedRestaurants.length = (i : ℤ) := by
      rw [hlen]
      exact (randomIndex_eq_iff r N i hN).mpr hr
    have hlt : i < s.cachedRestaurants.length := by omega
    refine ⟨s.cachedRestaurants[i], List.getElem?_eq_getElem hlt, ?_⟩
    rw [displayRandom_of_nonempty fetch r s hne, hidx, elementAt_natCast,
      List.getElem?_eq_getElem hlt]


/-! ## Draws that are doubles -/

/-- A double below 1 is at most `1 - 2 ^ (-53)`. -/
theorem isDouble_le_pred_one (r : ℚ) (hd : IsDouble r) (h0 : 0 ≤ r) (h1 : r < 1) :
    r ≤ 1 - (2 : ℚ) ^ (-53 : ℤ) := by
  have h53 : (2 : ℚ) ^ (-53 : ℤ) ≤ 1 / 2 := by
    have : (2 : ℚ) ^ (-53 : ℤ) ≤ (2 : ℚ) ^ (-1 : ℤ) :=
      zpow_le_zpow_right₀ (by norm_num) (by norm_num)
    have h2 : (2 : ℚ) ^ (-1 : ℤ) = 1 / 2 := by norm_num
    linarith
  rcases eq_or_lt_of_le h0 with hz | hpos
  · rw [← hz]
    generalize (2 : ℚ) ^ (-53 : ℤ) = p at h53 ⊢
    linarith
  · have hlog : Int.log 2 r < 0 := log_lt_of_lt_zpow hpos (by simpa using h1)
    by_cases hE : max (Int.log 2 r) (-1022) = -1
    · have hq : doubleSpacing r = (2 : ℚ) ^ (-53 : ℤ) := by
        rw [doubleSpacing_of_pos hpos, hE]
        norm_num
      have hr : r = (roundHalfEven (r / doubleSpacing r) : ℚ) * doubleSpacing r := by
        have := toDouble_of_pos hpos
        unfold IsDouble at hd
        rw [hd] at this
        exact this
      have hqpos := doubleSpacing_pos r
      have hone : (1 : ℚ) = (((2 : ℤ) ^ 53 : ℤ) : ℚ) * doubleSpacing r := by
        rw [hq]
        norm_num
      have hlt : (roundHalfEven (r / doubleSpacing r) : ℚ) < (((2 : ℤ) ^ 53 : ℤ) : ℚ) := by
        by_contra hcon
        have hge := not_lt.mp hcon
        have := mul_le_mul_of_nonneg_right hge (le_of_lt hqpos)
        rw [← hr, ← hone] at this
        linarith
      have hle : roundHalfEven (r / doubleSpacing r) ≤ (2 : ℤ) ^ 53 - 1 := by
        have := Int.cast_lt.mp hlt
        omega
      have hle' : (roundHalfEven (r / doubleSpacing r) : ℚ) ≤ (((2 : ℤ) ^ 53 - 1 : ℤ) : ℚ) :=
        Int.cast_le.mpr hle
      have := mul_le_mul_of_nonneg_right hle' (le_of_lt hqpos)
      rw [← hr] at this
      have hexp : (((2 : ℤ) ^ 53 - 1 : ℤ) : ℚ) * doubleSpacing r =
          1 - (2 : ℚ) ^ (-53 : ℤ) := by
        rw [hq]
        push_cast
        norm_num
      rw [hexp] at this
      exact this
    · have hlog2 : Int.log 2 r + 1 ≤ -1 := by
        have hmax := le_max_left (Int.log 2 r) (-1022)
        by_contra hcon
        have hl : Int.log 2 r = -1 := by omega
        apply hE
        rw [hl]
        norm_num
      have hlt := lt_zpow_log_succ r
      have hle : (2 : ℚ) ^ (Int.log 2 r + 1) ≤ (2 : ℚ) ^ (-1 : ℤ) :=
        zpow_le_zpow_right₀ (by norm_num) hlog2
      have h2 : (2 : ℚ) ^ (-1 : ℤ) = 1 / 2 := by norm_num
      rw [h2] at hle
      generalize (2 : ℚ) ^ (Int.log 2 r + 1) = t at hlt hle
      generalize (2 : ℚ) ^ (-53 : ℤ) = p at h53 ⊢
      linarith

/-- For a draw that is a double of `[0, 1)` the rounded index is within the array. -/
theorem randomIndexDouble_bounds (r : ℚ) (N : ℕ) (hN : 0 < N) (hN32 : N < 2 ^ 32)
    (hd : IsDouble r) (h0 : 0 ≤ r) (h1 : r < 1) :
    0 ≤ randomIndexDouble r N ∧ randomIndexDouble r N < (N : ℤ) := by
  have hpos : (0 : ℚ) < (N : ℚ) := by exact_mod_cast hN
  have hrN : (0 : ℚ) ≤ r * N := mul_nonneg h0 (le_of_lt hpos)
  have heps : (0 : ℚ) < (2 : ℚ) ^ (-53 : ℤ) := by positivity
  constructor
  · unfold randomIndexDouble
    exact Int.floor_nonneg.mpr (toDouble_nonneg hrN)
  · unfold randomIndexDouble
    rw [Int.floor_lt]
    have hpred := isDouble_le_pred_one r hd h0 h1
    have hle : toDouble (r * N) ≤ (N : ℚ) := by
      have := toDouble_mono hrN (show r * N ≤ (N : ℚ) by nlinarith)
      rwa [toDouble_natCast N (by omega)] at this
    have hne : toDouble (r * N) ≠ (N : ℚ) := by
      intro heq
      have hone : (1 : ℚ) ≤ toDouble (r * N) := by
        rw [heq]
        exact_mod_cast hN
      have hprod : 0 < r * N := by
        rcases eq_or_lt_of_le hrN with hz | hp
        · rw [← hz] at hone
          simp [toDouble] at hone
          linarith
        · exact hp
      have hmul := toDouble_le_mul hprod hone
      rw [heq] at hmul
      have hx : r * N ≤ (1 - (2 : ℚ) ^ (-53 : ℤ)) * N :=
        mul_le_mul_of_nonneg_right hpred (le_of_lt hpos)
      generalize (2 : ℚ) ^ (-53 : ℤ) = p at heps hmul hx
      have hp1 : (0 : ℚ) ≤ 1 + p := by linarith
      have h3 : r * N * (1 + p) ≤ (1 - p) * N * (1 + p) :=
        mul_le_mul_of_nonneg_right hx hp1
      have h4 : (1 - p) * (N : ℚ) * (1 + p) = N - p * p * N := by ring
      have h5 : 0 < p * p * N := by positivity
      linarith
    have : toDouble (r * N) < (N : ℚ) := lt_of_le_of_ne hle hne
    simpa using this

/-! ## The claims -/

/-- C1 (the code exceeds the bound): on the four pages of `overflowPages`, of 20, 20, 19 and
20 results with pairwise different names, the fetch cycle succeeds, showing the restaurant
at index 39 for the draw 1/2, and the collection it writes to the cache, in memory and in
the store, has 79 entries, more than `MAX_RESULTS = 60`: the test of line 80 lets the
fourth page in at 59 accumulated results and nothing shortens `allResults` afterwards. -/
theorem fetch_cache_exceeds_MAX_RESULTS :
    (getLocationAndFetchRestaurants asciiLower (1 / 2)
        [{ geo := GeoOutcome.position origin, search := SearchOutcome.pages overflowPages }]
        (startup { cachedRestaurants := none, cachedLocation := none }).1).1.cachedRestaurants.length
      = 79 ∧
    ((getLocationAndFetchRestaurants asciiLower (1 / 2)
        [{ geo := GeoOutcome.position origin, search := SearchOutcome.pages overflowPages }]
        (startup { cachedRestaurants := none, cachedLocation := none }).1).1.localStorage.cachedRestaurants.map
          List.length) = some 79 ∧
    (getLocationAndFetchRestaurants asciiLower (1 / 2)
        [{ geo := GeoOutcome.position origin, search := SearchOutcome.pages overflowPages }]
        (startup { cachedRestaurants := none, cachedLocation := none }).1).2 =
      [Output.displayRestaurant
        { name := ⟨List.replicate 40 'r'⟩, vicinity := "Main Street", rating := 4 }] ∧
    MAX_RESULTS < 79 := by
  decide!

/-- C2: `filterUniqueRestaurants xs` is the list of the entries of `xs`, in order, whose
lower-cased name differs from that of every earlier entry (`firstOccurrences`); it is a
sub-sequence of `xs`, no two of its entries have the same lower-cased name, and it is no
longer than `xs`. -/
theorem filterUniqueRestaurants_first_occurrences (toLowerCase : String → String)
    (xs : List Restaurant) :
    filterUniqueRestaurants toLowerCase xs = firstOccurrences toLowerCase xs ∧
    List.Sublist (filterUniqueRestaurants toLowerCase xs) xs ∧
    (filterUniqueRestaurants toLowerCase xs).Pairwise
      (fun a b => toLowerCase a.name ≠ toLowerCase b.name) ∧
    (filterUniqueRestaurants toLowerCase xs).length ≤ xs.length := by
  refine ⟨?_, filterUniqueFrom_sublist _ xs [], filterUniqueFrom_pairwise _ xs [],
    (filterUniqueFrom_sublist _ xs []).length_le⟩
  unfold filterUniqueRestaurants
  rw [filterUniqueFrom_eq_firstOccurrencesFrom, firstOccurrencesFrom_nil]

/-- C3: deduplication is idempotent. -/
theorem filterUniqueRestaurants_idempotent (toLowerCase : String → String)
    (xs : List Restaurant) :
    filterUniqueRestaurants toLowerCase (filterUniqueRestaurants toLowerCase xs) =
      filterUniqueRestaurants toLowerCase xs :=
  filterUniqueFrom_idem toLowerCase xs []

/-- C4 (amended): for every way `m` of computing lines 166-179, when a cached location is
present and the distance computed for the new coordinate compares greater than the
threshold at line 40, the location check empties the restaurant collection, in memory and
in the store, and calls `refreshPage`; lines 46-47 then store the new coordinate as the
cached location, in memory and in the store, and the page load that the reset brings about
clears the whole cache, location included.  When the computed distance is `NaN` the
comparison is false: the restaurants stay, nothing is emitted and the new coordinate is
stored. -/
theorem checkLocation_significant_change {F : Type} [LinearOrder F] (m : JSMath F)
    (threshold : F) (s : State F) (cached current : Coordinate F)
    (hc : s.cachedLocation = some cached)
    (hd : calculateDistanceWith m current cached > threshold) :
    (checkLocationForSignificantChanges (calculateDistanceWith m) threshold
        (GeoOutcome.position current) s).1 =
      { cachedRestaurants := [], cachedLocation := some current,
        localStorage := { cachedRestaurants := none, cachedLocation := some current } } ∧
    Output.refreshPage ∈
      (checkLocationForSignificantChanges (calculateDistanceWith m) threshold
        (GeoOutcome.position current) s).2 ∧
    (startup (checkLocationForSignificantChanges (calculateDistanceWith m) threshold
        (GeoOutcome.position current) s).1.localStorage).1 =
      { cachedRestaurants := [], cachedLocation := none,
        localStorage := { cachedRestaurants := none, cachedLocation := none } } ∧
    (∀ (n : JSMath JSNumber) (t : JSNumber) (s' : State JSNumber)
        (cached' current' : Coordinate JSNumber),
      s'.cachedLocation = some cached' →
      calculateDistanceWith n current' cached' = NaN →
      checkLocationForSignificantChanges (calculateDistanceWith n) t
          (GeoOutcome.position current') s' =
        ({ cachedRestaurants := s'.cachedRestaurants, cachedLocation := some current',
           localStorage := { cachedRestaurants := s'.localStorage.cachedRestaurants,
                             cachedLocation := some current' } }, [])) := by
  rw [check_of_significant (calculateDistanceWith m) threshold s cached current hc hd]
  refine ⟨rfl, by simp, rfl, ?_⟩
  intro n t s' cached' current' hc' hnan
  apply check_of_not_significant
  intro c hcs
  rw [hc'] at hcs
  cases hcs
  rw [hnan]
  exact not_lt.mp (not_gt_NaN t)

/-- Witness of C4 (amended): three restaurants cached at longitude 0 on the equator, the
new coordinate at longitude 180, the distance computed exactly over the reals. -/
theorem checkLocation_significant_change_witness :
    fetchedAtEquator.cachedLocation = some equatorWest ∧
    calculateDistanceWith realMath antipode equatorWest > SIGNIFICANT_DISTANCE_THRESHOLD ∧
    (checkLocationForSignificantChanges (calculateDistanceWith realMath)
        SIGNIFICANT_DISTANCE_THRESHOLD (GeoOutcome.position antipode) fetchedAtEquator).1 =
      { cachedRestaurants := [], cachedLocation := some antipode,
        localStorage := { cachedRestaurants := none, cachedLocation := some antipode } } ∧
    Output.refreshPage ∈
      (checkLocationForSignificantChanges (calculateDistanceWith realMath)
        SIGNIFICANT_DISTANCE_THRESHOLD (GeoOutcome.position antipode) fetchedAtEquator).2 :=
  have hd : calculateDistanceWith realMath antipode equatorWest >
      SIGNIFICANT_DISTANCE_THRESHOLD := by
    rw [calculateDistanceWith_realMath]
    exact threshold_lt_antipode
  ⟨rfl, hd,
   (checkLocation_significant_change realMath SIGNIFICANT_DISTANCE_THRESHOLD fetchedAtEquator
     equatorWest antipode rfl hd).1,
   (checkLocation_significant_change realMath SIGNIFICANT_DISTANCE_THRESHOLD fetchedAtEquator
     equatorWest antipode rfl hd).2.1⟩

/-- C4 as stated fails: with three restaurants cached at longitude 0 on the equator and the
new coordinate at longitude 180, farther than the threshold, the cached location after the
location check is the new coordinate, in memory and in the store, and not absent; lines
46-47 store it on either branch of line 41, so this holds whatever number the distance
computation returns and whatever the threshold. -/
theorem checkLocation_location_not_absent :
    fetchedAtEquator.cachedLocation = some equatorWest ∧
    calculateDistance antipode equatorWest > SIGNIFICANT_DISTANCE_THRESHOLD ∧
    (checkLocationForSignificantChanges calculateDistance SIGNIFICANT_DISTANCE_THRESHOLD
        (GeoOutcome.position antipode) fetchedAtEquator).1.cachedLocation ≠ none ∧
    (checkLocationForSignificantChanges calculateDistance SIGNIFICANT_DISTANCE_THRESHOLD
        (GeoOutcome.position antipode) fetchedAtEquator).1.localStorage.cachedLocation
      ≠ none ∧
    (∀ (distance : Coordinate ℝ → Coordinate ℝ → ℝ) (threshold : ℝ),
      (checkLocationForSignificantChanges distance threshold
          (GeoOutcome.position antipode) fetchedAtEquator).1.cachedLocation = some antipode ∧
      (checkLocationForSignificantChanges distance threshold
          (GeoOutcome.position antipode) fetchedAtEquator).1.localStorage.cachedLocation =
        some antipode) := by
  refine ⟨rfl, threshold_lt_antipode, ?_, ?_, ?_⟩
  · rw [check_of_significant calculateDistance SIGNIFICANT_DISTANCE_THRESHOLD
      fetchedAtEquator equatorWest antipode rfl threshold_lt_antipode]
    simp
  · rw [check_of_significant calculateDistance SIGNIFICANT_DISTANCE_THRESHOLD
      fetchedAtEquator equatorWest antipode rfl threshold_lt_antipode]
    simp
  · intro distance threshold
    by_cases hd : distance antipode equatorWest > threshold
    · rw [check_of_significant distance threshold fetchedAtEquator equatorWest antipode rfl hd]
      exact ⟨rfl, rfl⟩
    · rw [check_of_not_significant distance threshold fetchedAtEquator antipode]
      · exact ⟨rfl, rfl⟩
      · intro c hc
        have hce : c = equatorWest := (Option.some.inj hc).symm
        rw [hce]
        exact not_lt.mp hd

/-- C5: when no cached location exists, or the new coordinate lies at most the threshold
away from it (equality included), the location check leaves the restaurant collection as
it was, in memory and in the store, emits nothing, so no reset, and stores the new
coordinate as the cached location, in memory and in the store. -/
theorem checkLocation_no_significant_change (s : State ℝ) (current : Coordinate ℝ)
    (h : s.cachedLocation = none ∨
      ∃ cached, s.cachedLocation = some cached ∧
        calculateDistance current cached ≤ SIGNIFICANT_DISTANCE_THRESHOLD) :
    (checkLocationForSignificantChanges calculateDistance SIGNIFICANT_DISTANCE_THRESHOLD
        (GeoOutcome.position current) s).1 =
      { cachedRestaurants := s.cachedRestaurants, cachedLocation := some current,
        localStorage := { cachedRestaurants := s.localStorage.cachedRestaurants,
                          cachedLocation := some current } } ∧
    (checkLocationForSignificantChanges calculateDistance SIGNIFICANT_DISTANCE_THRESHOLD
        (GeoOutcome.position current) s).2 = [] ∧
    Output.refreshPage ∉
      (checkLocationForSignificantChanges calculateDistance SIGNIFICANT_DISTANCE_THRESHOLD
        (GeoOutcome.position current) s).2 := by
  have hle : ∀ cached, s.cachedLocation = some cached →
      calculateDistance current cached ≤ SIGNIFICANT_DISTANCE_THRESHOLD := by
    intro cached hc
    rcases h with hnone | ⟨cached', hc', hd⟩
    · rw [hnone] at hc
      cases hc
    · rw [hc'] at hc
      cases hc
      exact hd
  rw [check_of_not_significant calculateDistance SIGNIFICANT_DISTANCE_THRESHOLD s current hle]
  refine ⟨rfl, rfl, ?_⟩
  simp

/-- Witness of C5 at equality: three restaurants cached at longitude 0 on the equator, the
new coordinate on the equator at a distance of the threshold itself. -/
theorem checkLocation_no_significant_change_witness :
    fetchedAtEquator.cachedLocation = some equatorWest ∧
    calculateDistance atThreshold equatorWest = SIGNIFICANT_DISTANCE_THRESHOLD ∧
    (checkLocationForSignificantChanges calculateDistance SIGNIFICANT_DISTANCE_THRESHOLD
        (GeoOutcome.position atThreshold) fetchedAtEquator).1 =
      { cachedRestaurants := fetchedAtEquator.cachedRestaurants,
        cachedLocation := some atThreshold,
        localStorage := { cachedRestaurants := fetchedAtEquator.localStorage.cachedRestaurants,
                          cachedLocation := some atThreshold } } ∧
    (checkLocationForSignificantChanges calculateDistance SIGNIFICANT_DISTANCE_THRESHOLD
        (GeoOutcome.position atThreshold) fetchedAtEquator).2 = [] ∧
    Output.refreshPage ∉
      (checkLocationForSignificantChanges calculateDistance SIGNIFICANT_DISTANCE_THRESHOLD
        (GeoOutcome.position atThreshold) fetchedAtEquator).2 :=
  ⟨rfl, atThreshold_distance,
   checkLocation_no_significant_change fetchedAtEquator atThreshold
     (Or.inr ⟨equatorWest, rfl, le_of_eq atThreshold_distance⟩)⟩

/-- C6: a fetch cycle that shows an error message leaves the state, variables and store,
as it was and shows nothing else; a first page with a status other than `OK` or with no
results gives 'No open restaurants found.', a failing location provider gives its own
message, and so does a bad page that arrives after earlier pages were accumulated. -/
theorem fetch_error_leaves_cache {F : Type} (toLowerCase : String → String) (random : ℚ)
    (s : State F) :
    (∀ (envs : List (FetchEnv F)) (message : String),
      Output.displayError message ∈
          (getLocationAndFetchRestaurants toLowerCase random envs s).2 →
        (getLocationAndFetchRestaurants toLowerCase random envs s).1 = s ∧
        (getLocationAndFetchRestaurants toLowerCase random envs s).2 =
          [Output.displayError message]) ∧
    (∀ (c : Coordinate F) (page : Page) (pages : List Page) (later : List (FetchEnv F)),
      ¬ (page.status = PlacesServiceStatus.OK ∧ page.results.length > 0) →
        getLocationAndFetchRestaurants toLowerCase random
            ({ geo := GeoOutcome.position c,
               search := SearchOutcome.pages (page :: pages) } :: later) s =
          (s, [Output.displayError "No open restaurants found."])) ∧
    (∀ (search : SearchOutcome) (later : List (FetchEnv F)),
      getLocationAndFetchRestaurants toLowerCase random
          ({ geo := GeoOutcome.failed, search := search } :: later) s =
        (s, [Output.displayError "Failed to get your location."])) ∧
    (∀ (c : Coordinate F) (earlier : List Page) (page : Page) (pages : List Page)
        (later : List (FetchEnv F)),
      collectPages [] earlier = PageOutcome.awaiting →
      ¬ (page.status = PlacesServiceStatus.OK ∧ page.results.length > 0) →
        getLocationAndFetchRestaurants toLowerCase random
            ({ geo := GeoOutcome.position c,
               search := SearchOutcome.pages (earlier ++ page :: pages) } :: later) s =
          (s, [Output.displayError "No open restaurants found."])) := by
  refine ⟨?_, ?_, ?_, ?_⟩
  · intro envs message hmem
    exact fetch_error_unchanged toLowerCase random envs s message hmem
  · intro c page pages later hbad
    rw [getLocationAndFetchRestaurants_eq]
    simp only [collectPages, hbad, if_false]
  · intro search later
    rw [getLocationAndFetchRestaurants_eq]
  · intro c earlier page pages later hearlier hbad
    rw [getLocationAndFetchRestaurants_eq]
    obtain ⟨acc, hacc⟩ := collectPages_append_of_awaiting earlier (page :: pages) [] hearlier
    simp only [hacc, collectPages, hbad, if_false]

/-- Witness of C6 on a cache of three restaurants: a first page without results, and a
page without results after a page of 20 that announced a further page. -/
theorem fetch_error_leaves_cache_witness :
    ¬ (emptyPage.status = PlacesServiceStatus.OK ∧ emptyPage.results.length > 0) ∧
    collectPages []
        [{ status := PlacesServiceStatus.OK, results := sampleRestaurants 0 20,
           hasNextPage := true }] = PageOutcome.awaiting ∧
    getLocationAndFetchRestaurants asciiLower (1 / 2)
        [{ geo := GeoOutcome.position origin, search := SearchOutcome.pages [emptyPage] }]
        sampleState =
      (sampleState, [Output.displayError "No open restaurants found."]) ∧
    getLocationAndFetchRestaurants asciiLower (1 / 2)
        [{ geo := GeoOutcome.position origin,
           search := SearchOutcome.pages
             ([{ status := PlacesServiceStatus.OK, results := sampleRestaurants 0 20,
                 hasNextPage := true }] ++ emptyPage :: []) }]
        sampleState =
      (sampleState, [Output.displayError "No open restaurants found."]) :=
  ⟨by decide, by decide,
   (fetch_error_leaves_cache asciiLower (1 / 2) sampleState).2.1 origin emptyPage [] []
      (by decide),
   (fetch_error_leaves_cache asciiLower (1 / 2) sampleState).2.2.2 origin _ emptyPage [] []
      (by decide) (by decide)⟩

/-- C7 as stated fails: after a page load on an empty store, a fetch cycle at longitude 0
on the equator caches three restaurants together with that coordinate; a location check
about 1.1 km further east, within the threshold, then leaves the three restaurants cached
and overwrites the cached location, so that the location present in the cache is not the
coordinate at which the collection was fetched, and it was written by a location check. -/
theorem cachedLocation_not_fetch_coordinate :
    run asciiLower calculateDistance SIGNIFICANT_DISTANCE_THRESHOLD
        { cachedRestaurants := none, cachedLocation := none }
        [Input.fetch (1 / 2)
          [{ geo := GeoOutcome.position equatorWest,
             search := SearchOutcome.pages [threeResults] }]] =
      cacheWritten asciiLower equatorWest (sampleRestaurants 0 3) ∧
    (run asciiLower calculateDistance SIGNIFICANT_DISTANCE_THRESHOLD
        { cachedRestaurants := none, cachedLocation := none }
        [Input.fetch (1 / 2)
          [{ geo := GeoOutcome.position equatorWest,
             search := SearchOutcome.pages [threeResults] }],
         Input.locationCheck (GeoOutcome.position nearby)]).cachedRestaurants =
      sampleRestaurants 0 3 ∧
    (run asciiLower calculateDistance SIGNIFICANT_DISTANCE_THRESHOLD
        { cachedRestaurants := none, cachedLocation := none }
        [Input.fetch (1 / 2)
          [{ geo := GeoOutcome.position equatorWest,
             search := SearchOutcome.pages [threeResults] }],
         Input.locationCheck (GeoOutcome.position nearby)]).cachedLocation = some nearby ∧
    nearby ≠ equatorWest := by
  have hpages : collectPages [] [threeResults] = PageOutcome.finished (sampleRestaurants 0 3) := by
    decide
  have hfetch : ∀ s : State ℝ,
      (getLocationAndFetchRestaurants asciiLower (1 / 2)
        [{ geo := GeoOutcome.position equatorWest,
           search := SearchOutcome.pages [threeResults] }] s).1 =
        cacheWritten asciiLower equatorWest (sampleRestaurants 0 3) := by
    intro s
    rw [getLocationAndFetchRestaurants_eq]
    simp only [hpages]
  have hle : ∀ cached,
      (cacheWritten asciiLower equatorWest (sampleRestaurants 0 3)).cachedLocation =
        some cached →
      calculateDistance nearby cached ≤ SIGNIFICANT_DISTANCE_THRESHOLD := by
    intro cached hc
    cases hc
    exact nearby_le_threshold
  have hunique : filterUniqueRestaurants asciiLower (sampleRestaurants 0 3) =
      sampleRestaurants 0 3 := by decide
  refine ⟨?_, ?_, ?_, ?_⟩
  · simp only [run, List.foldl_cons, List.foldl_nil, step, hfetch]
  · simp only [run, List.foldl_cons, List.foldl_nil, step, hfetch]
    rw [check_of_not_significant calculateDistance SIGNIFICANT_DISTANCE_THRESHOLD _ nearby hle]
    exact hunique
  · simp only [run, List.foldl_cons, List.foldl_nil, step, hfetch]
    rw [check_of_not_significant calculateDistance SIGNIFICANT_DISTANCE_THRESHOLD _ nearby hle]
  · intro h
    have hl := congrArg Coordinate.longitude h
    norm_num [nearby, equatorWest] at hl

/-- C7 (amended): in every state reached from a page load by location checks, clicks,
delayed displays, fetch cycles and further page loads, when the cached collection is
non-empty it was written by a fetch cycle at a recorded coordinate, and the cached
location, in memory and in the store, is present and is the coordinate observed by the
latest location check since that fetch or, when there was none, the fetch coordinate.
A callback leaves the collection as it was, empties it, or is a successful fetch cycle that
writes collection and location together. -/
theorem cachedLocation_provenance (toLowerCase : String → String) (store : Store ℝ)
    (inputs : List (Input ℝ)) :
    (runTracked toLowerCase calculateDistance SIGNIFICANT_DISTANCE_THRESHOLD store inputs).1 =
      run toLowerCase calculateDistance SIGNIFICANT_DISTANCE_THRESHOLD store inputs ∧
    ((run toLowerCase calculateDistance SIGNIFICANT_DISTANCE_THRESHOLD store
        inputs).cachedRestaurants ≠ [] →
      ∃ c,
        (runTracked toLowerCase calculateDistance SIGNIFICANT_DISTANCE_THRESHOLD store
          inputs).2.fetchedAt = some c ∧
        (run toLowerCase calculateDistance SIGNIFICANT_DISTANCE_THRESHOLD store
          inputs).cachedLocation =
          some ((runTracked toLowerCase calculateDistance SIGNIFICANT_DISTANCE_THRESHOLD store
            inputs).2.observedSince.getD c) ∧
        (run toLowerCase calculateDistance SIGNIFICANT_DISTANCE_THRESHOLD store
          inputs).localStorage.cachedLocation =
          (run toLowerCase calculateDistance SIGNIFICANT_DISTANCE_THRESHOLD store
            inputs).cachedLocation) ∧
    (∀ (s : State ℝ) (input : Input ℝ),
      (step toLowerCase calculateDistance SIGNIFICANT_DISTANCE_THRESHOLD s
          input).1.cachedRestaurants = s.cachedRestaurants ∨
      (step toLowerCase calculateDistance SIGNIFICANT_DISTANCE_THRESHOLD s
          input).1.cachedRestaurants = [] ∨
      ∃ c all, all ≠ [] ∧
        (step toLowerCase calculateDistance SIGNIFICANT_DISTANCE_THRESHOLD s input).1 =
          cacheWritten toLowerCase c all ∧
        ∀ p, track p s
            (step toLowerCase calculateDistance SIGNIFICANT_DISTANCE_THRESHOLD s input).1
            input = { fetchedAt := some c, observedSince := none }) := by
  have hfst := runTracked_fst toLowerCase calculateDistance SIGNIFICANT_DISTANCE_THRESHOLD
    inputs (startup store).1 { fetchedAt := none, observedSince := none }
  have htraced := traced_foldl toLowerCase calculateDistance SIGNIFICANT_DISTANCE_THRESHOLD
    inputs (startup store).1 { fetchedAt := none, observedSince := none }
    (fun hne => absurd rfl hne)
  refine ⟨hfst, ?_, ?_⟩
  · intro hne
    have h := htraced (by rw [hfst]; exact hne)
    rw [hfst] at h
    exact h
  · intro s input
    exact step_restaurants_cases toLowerCase calculateDistance SIGNIFICANT_DISTANCE_THRESHOLD
      s input

/-- Witness of C7 (amended) on the run of a fetch cycle at longitude 0 on the equator
followed by a location check about 1.1 km further east: the collection is non-empty, it
was fetched at longitude 0 and the cached location is the coordinate of the check. -/
theorem cachedLocation_provenance_witness :
    (run asciiLower calculateDistance SIGNIFICANT_DISTANCE_THRESHOLD
        { cachedRestaurants := none, cachedLocation := none }
        [Input.fetch (1 / 2)
          [{ geo := GeoOutcome.position equatorWest,
             search := SearchOutcome.pages [threeResults] }],
         Input.locationCheck (GeoOutcome.position nearby)]).cachedRestaurants ≠ [] ∧
    ∃ c,
      (runTracked asciiLower calculateDistance SIGNIFICANT_DISTANCE_THRESHOLD
        { cachedRestaurants := none, cachedLocation := none }
        [Input.fetch (1 / 2)
          [{ geo := GeoOutcome.position equatorWest,
             search := SearchOutcome.pages [threeResults] }],
         Input.locationCheck (GeoOutcome.position nearby)]).2.fetchedAt = some c ∧
      (run asciiLower calculateDistance SIGNIFICANT_DISTANCE_THRESHOLD
        { cachedRestaurants := none, cachedLocation := none }
        [Input.fetch (1 / 2)
          [{ geo := GeoOutcome.position equatorWest,
             search := SearchOutcome.pages [threeResults] }],
         Input.locationCheck (GeoOutcome.position nearby)]).cachedLocation =
        some ((runTracked asciiLower calculateDistance SIGNIFICANT_DISTANCE_THRESHOLD
          { cachedRestaurants := none, cachedLocation := none }
          [Input.fetch (1 / 2)
            [{ geo := GeoOutcome.position equatorWest,
               search := SearchOutcome.pages [threeResults] }],
           Input.locationCheck (GeoOutcome.position nearby)]).2.observedSince.getD c) ∧
      (run asciiLower calculateDistance SIGNIFICANT_DISTANCE_THRESHOLD
        { cachedRestaurants := none, cachedLocation := none }
        [Input.fetch (1 / 2)
          [{ geo := GeoOutcome.position equatorWest,
             search := SearchOutcome.pages [threeResults] }],
         Input.locationCheck (GeoOutcome.position nearby)]).localStorage.cachedLocation =
        (run asciiLower calculateDistance SIGNIFICANT_DISTANCE_THRESHOLD
          { cachedRestaurants := none, cachedLocation := none }
          [Input.fetch (1 / 2)
            [{ geo := GeoOutcome.position equatorWest,
               search := SearchOutcome.pages [threeResults] }],
           Input.locationCheck (GeoOutcome.position nearby)]).cachedLocation :=
  have hne : (run asciiLower calculateDistance SIGNIFICANT_DISTANCE_THRESHOLD
        { cachedRestaurants := none, cachedLocation := none }
        [Input.fetch (1 / 2)
          [{ geo := GeoOutcome.position equatorWest,
             search := SearchOutcome.pages [threeResults] }],
         Input.locationCheck (GeoOutcome.position nearby)]).cachedRestaurants ≠ [] := by
    rw [run_fetch_then_check_restaurants]
    decide
  ⟨hne, (cachedLocation_provenance asciiLower _ _).2.1 hne⟩

/-- C8: with a non-empty cache and a draw `0 ≤ random < 1`, the index of line 113 lies in
`0 .. length - 1`, the call shows one restaurant, which is a member of the cache, the
state is unchanged, and the `fetch` of the `else` branch has no part in the result. -/
theorem displayRandomRestaurantFromCache_member {F : Type}
    (fetch : State F → State F × List Output) (random : ℚ) (s : State F)
    (hN : 0 < s.cachedRestaurants.length) (h0 : 0 ≤ random) (h1 : random < 1) :
    0 ≤ randomIndex random s.cachedRestaurants.length ∧
    randomIndex random s.cachedRestaurants.length < (s.cachedRestaurants.length : ℤ) ∧
    ∃ restaurant ∈ s.cachedRestaurants,
      elementAt s.cachedRestaurants (randomIndex random s.cachedRestaurants.length) =
        some restaurant ∧
      displayRandomRestaurantFromCache fetch random s =
        (s, [Output.displayRestaurant restaurant]) := by
  have hi0 := randomIndex_nonneg random s.cachedRestaurants.length h0
  have hi1 := randomIndex_lt random s.cachedRestaurants.length hN h1
  obtain ⟨x, hx, hex⟩ := elementAt_of_bounds s.cachedRestaurants _ hi0 hi1
  refine ⟨hi0, hi1, x, hx, hex, ?_⟩
  rw [displayRandom_of_nonempty fetch random s (List.length_pos.mp hN), hex]

/-- Witness of C8: three cached restaurants, the draw 1/2, and a `fetch` that would empty
the cache if it were called. -/
theorem displayRandomRestaurantFromCache_member_witness :
    0 < sampleState.cachedRestaurants.length ∧ (0 : ℚ) ≤ 1 / 2 ∧ (1 / 2 : ℚ) < 1 ∧
    0 ≤ randomIndex (1 / 2) sampleState.cachedRestaurants.length ∧
    randomIndex (1 / 2) sampleState.cachedRestaurants.length <
      (sampleState.cachedRestaurants.length : ℤ) ∧
    ∃ restaurant ∈ sampleState.cachedRestaurants,
      elementAt sampleState.cachedRestaurants
          (randomIndex (1 / 2) sampleState.cachedRestaurants.length) = some restaurant ∧
      displayRandomRestaurantFromCache clearCachedData (1 / 2) sampleState =
        (sampleState, [Output.displayRestaurant restaurant]) :=
  ⟨by decide, by norm_num, by norm_num,
   displayRandomRestaurantFromCache_member clearCachedData (1 / 2) sampleState
     (by decide) (by norm_num) (by norm_num)⟩

/-- C9: over the reals the distance from a coordinate to itself is 0 and the distance is
symmetric in its two arguments. -/
theorem calculateDistance_self_and_symm (a b : Coordinate ℝ) :
    calculateDistance a a = 0 ∧ calculateDistance a b = calculateDistance b a :=
  ⟨calculateDistance_self a, calculateDistance_comm a b⟩

/-- C10: over the reals the haversine term lies in `[0, 1]`, so both square roots of line
176 are taken of non-negative numbers, and the distance lies between 0 and
`π * 6371000`. -/
theorem calculateDistance_bounds (a b : Coordinate ℝ) :
    0 ≤ haversineTerm a b ∧ haversineTerm a b ≤ 1 ∧ 0 ≤ 1 - haversineTerm a b ∧
    0 ≤ calculateDistance a b ∧ calculateDistance a b ≤ Real.pi * 6371000 :=
  ⟨haversineTerm_nonneg a b, haversineTerm_le_one a b,
   sub_nonneg.mpr (haversineTerm_le_one a b),
   calculateDistance_nonneg a b, calculateDistance_le a b⟩

/-- C11: after a page with status `OK` and at least one result is accumulated, the next
page is handed to `handlePage` exactly when the page reports a further page and the
accumulated count is below `MAX_RESULTS`; otherwise, in particular once the count has
reached 60, the cycle finishes with that page whatever pages would follow; the cycle is
left waiting for a page exactly in the first case. -/
theorem handlePage_requests_next_iff {F : Type} (toLowerCase : String → String)
    (c : Coordinate F) (display : State F → State F × List Output) (s : State F)
    (allResults : List Restaurant) (page : Page)
    (hgood : page.status = PlacesServiceStatus.OK ∧ page.results.length > 0) :
    (page.hasNextPage = true ∧ (allResults ++ page.results).length < MAX_RESULTS →
      ∀ later, handlePage toLowerCase c display s allResults (page :: later) =
        handlePage toLowerCase c display s (allResults ++ page.results) later) ∧
    (¬ (page.hasNextPage = true ∧ (allResults ++ page.results).length < MAX_RESULTS) →
      ∀ later, handlePage toLowerCase c display s allResults (page :: later) =
        display (cacheWritten toLowerCase c (allResults ++ page.results))) ∧
    (MAX_RESULTS ≤ (allResults ++ page.results).length →
      ∀ later, handlePage toLowerCase c display s allResults (page :: later) =
        display (cacheWritten toLowerCase c (allResults ++ page.results))) ∧
    (collectPages allResults [page] = PageOutcome.awaiting ↔
      page.hasNextPage = true ∧ (allResults ++ page.results).length < MAX_RESULTS) := by
  have hfinish : ¬ (page.hasNextPage = true ∧
      (allResults ++ page.results).length < MAX_RESULTS) →
      ∀ later, handlePage toLowerCase c display s allResults (page :: later) =
        display (cacheWritten toLowerCase c (allResults ++ page.results)) := by
    intro hno later
    rw [handlePage_eq, collectPages_good allResults page later hgood, if_neg hno]
  refine ⟨?_, hfinish, ?_, ?_⟩
  · intro hnext later
    rw [handlePage_eq, handlePage_eq, collectPages_good allResults page later hgood,
      if_pos hnext]
  · intro hcap
    exact hfinish fun h => absurd h.2 (not_lt.mpr hcap)
  · rw [collectPages_good allResults page [] hgood]
    by_cases hnext : page.hasNextPage = true ∧
        (allResults ++ page.results).length < MAX_RESULTS
    · rw [if_pos hnext]
      exact ⟨fun _ => hnext, fun _ => rfl⟩
    · rw [if_neg hnext]
      exact ⟨fun h => PageOutcome.noConfusion h, fun h => absurd h hnext⟩

/-- Witness of C11: with 40 results accumulated, a page of 20 that reports a further page
brings the count to 60 and the cycle finishes with it, the page that follows unread; with
nothing accumulated the same page leaves the cycle waiting for the next one. -/
theorem handlePage_requests_next_iff_witness :
    ((fullPage 40).status = PlacesServiceStatus.OK ∧ (fullPage 40).results.length > 0) ∧
    MAX_RESULTS ≤ (sampleRestaurants 0 40 ++ (fullPage 40).results).length ∧
    handlePage asciiLower origin (fun s => (s, [])) sampleState (sampleRestaurants 0 40)
        (fullPage 40 :: [emptyPage]) =
      (cacheWritten asciiLower origin (sampleRestaurants 0 40 ++ (fullPage 40).results), []) ∧
    collectPages [] [fullPage 40] = PageOutcome.awaiting :=
  ⟨by decide, by decide,
   (handlePage_requests_next_iff asciiLower origin (fun s => (s, [])) sampleState
      (sampleRestaurants 0 40) (fullPage 40) (by decide)).2.2.1 (by decide) [emptyPage],
   (handlePage_requests_next_iff asciiLower origin (fun s => (s, [])) sampleState
      [] (fullPage 40) (by decide)).2.2.2.mpr (by decide)⟩

/-- C12: when the pages `earlier` each led to a request for the next page and the cycle
finished on the page `last`, the state after the fetch cycle at the coordinate `c` holds
`filterUniqueRestaurants` of the results of `earlier ++ [last]` in page order and the
coordinate `c`, both in the variables and in the store, whatever pages would follow. -/
theorem fetch_success_writes_cache {F : Type} (toLowerCase : String → String) (random : ℚ)
    (c : Coordinate F) (s : State F) (earlier : List Page) (last : Page) (rest : List Page)
    (later : List (FetchEnv F)) (all : List Restaurant)
    (h1 : collectPages [] earlier = PageOutcome.awaiting)
    (h2 : collectPages [] (earlier ++ [last]) = PageOutcome.finished all) :
    all = concatResults (earlier ++ [last]) ∧
    (getLocationAndFetchRestaurants toLowerCase random
        ({ geo := GeoOutcome.position c,
           search := SearchOutcome.pages (earlier ++ last :: rest) } :: later) s).1 =
      { cachedRestaurants :=
          filterUniqueRestaurants toLowerCase (concatResults (earlier ++ [last])),
        cachedLocation := some c,
        localStorage :=
          { cachedRestaurants :=
              some (filterUniqueRestaurants toLowerCase (concatResults (earlier ++ [last]))),
            cachedLocation := some c } } := by
  have hall := collectPages_finished_snoc earlier last all h1 h2
  refine ⟨hall, ?_⟩
  rw [getLocationAndFetchRestaurants_eq]
  simp only [collectPages_finished_append earlier last rest all h1 h2]
  rw [hall]
  rfl

/-- Witness of C12: two pages of 20 that report a further page, then a page of three
results that reports none, fetched at `origin` over a cache that held something else. -/
theorem fetch_success_writes_cache_witness :
    collectPages [] [fullPage 0, fullPage 20] = PageOutcome.awaiting ∧
    collectPages [] ([fullPage 0, fullPage 20] ++
        [{ status := PlacesServiceStatus.OK, results := sampleRestaurants 40 3,
           hasNextPage := false }]) = PageOutcome.finished (sampleRestaurants 0 43) ∧
    sampleRestaurants 0 43 =
      concatResults ([fullPage 0, fullPage 20] ++
        [{ status := PlacesServiceStatus.OK, results := sampleRestaurants 40 3,
           hasNextPage := false }]) ∧
    (getLocationAndFetchRestaurants asciiLower (1 / 2)
        ({ geo := GeoOutcome.position origin,
           search := SearchOutcome.pages ([fullPage 0, fullPage 20] ++
             { status := PlacesServiceStatus.OK, results := sampleRestaurants 40 3,
               hasNextPage := false } :: [emptyPage]) } :: []) sampleState).1 =
      { cachedRestaurants :=
          filterUniqueRestaurants asciiLower (concatResults ([fullPage 0, fullPage 20] ++
            [{ status := PlacesServiceStatus.OK, results := sampleRestaurants 40 3,
               hasNextPage := false }])),
        cachedLocation := some origin,
        localStorage :=
          { cachedRestaurants :=
              some (filterUniqueRestaurants asciiLower
                (concatResults ([fullPage 0, fullPage 20] ++
                  [{ status := PlacesServiceStatus.OK, results := sampleRestaurants 40 3,
                     hasNextPage := false }]))),
            cachedLocation := some origin } } :=
  ⟨by decide, by decide,
   fetch_success_writes_cache asciiLower (1 / 2) origin sampleState
     [fullPage 0, fullPage 20]
     { status := PlacesServiceStatus.OK, results := sampleRestaurants 40 3,
       hasNextPage := false }
     [emptyPage] [] (sampleRestaurants 0 43) (by decide) (by decide)⟩

/-- C13 as stated fails: on an empty cache, a click whose location succeeds and whose
search delivers the finite sequence of one page with status `OK`, 20 results and a further
page announced leaves `handlePage` waiting for the next page; the cycle has emitted
neither a restaurant nor an error message and the state is as it was. -/
theorem pick_emits_nothing_while_awaiting :
    pickButtonClick asciiLower (1 / 2)
        [{ geo := GeoOutcome.position origin, search := SearchOutcome.pages [fullPage 0] }]
        (startup { cachedRestaurants := none, cachedLocation := none }).1 =
      ((startup { cachedRestaurants := none, cachedLocation := none }).1, []) := by
  have hwait : collectPages [] [fullPage 0] = PageOutcome.awaiting := by decide
  have hempty : ¬ (startup ({ cachedRestaurants := none, cachedLocation := none } :
      Store ℚ)).1.cachedRestaurants.length > 0 := by decide
  unfold pickButtonClick
  rw [if_neg hempty]
  exact fetch_awaiting_silent asciiLower (1 / 2) origin _ [fullPage 0] [] hwait

/-- C13 (amended): for a draw in `[0, 1)`, a click on a non-empty cache shows one
restaurant of the cache and nothing else; a click whose fetch is answered, the delivered
pages bringing `handlePage` to an end, emits exactly one output, a restaurant or an error
message; so does the delayed callback of lines 22-26 when counted over the outputs
addressed to the user; and pages that end with a page reporting no further page always
bring `handlePage` to an end. -/
theorem pick_emits_exactly_one {F : Type} (toLowerCase : String → String) (random : ℚ)
    (h0 : 0 ≤ random) (h1 : random < 1) (s : State F) :
    (s.cachedRestaurants ≠ [] → ∀ envs, ∃ x ∈ s.cachedRestaurants,
      pickButtonClick toLowerCase random envs s = (s, [Output.displayRestaurant x])) ∧
    (∀ (env : FetchEnv F) (later : List (FetchEnv F)),
      (∀ c ps, env.geo = GeoOutcome.position c → env.search = SearchOutcome.pages ps →
        collectPages [] ps ≠ PageOutcome.awaiting) →
      ((∃ x, (pickButtonClick toLowerCase random (env :: later) s).2 =
          [Output.displayRestaurant x]) ∨
        (∃ m, (pickButtonClick toLowerCase random (env :: later) s).2 =
          [Output.displayError m])) ∧
      ((∃ x, (displayRandomRestaurantFromCache
            (getLocationAndFetchRestaurants toLowerCase random (env :: later)) random
            s).2.filter isDisplay = [Output.displayRestaurant x]) ∨
        (∃ m, (displayRandomRestaurantFromCache
            (getLocationAndFetchRestaurants toLowerCase random (env :: later)) random
            s).2.filter isDisplay = [Output.displayError m]))) ∧
    (∀ (init : List Page) (last : Page), last.hasNextPage = false →
      collectPages [] (init ++ [last]) ≠ PageOutcome.awaiting) := by
  refine ⟨?_, ?_, ?_⟩
  · intro hne envs
    obtain ⟨x, hx, hd⟩ := display_of_draw
      (getLocationAndFetchRestaurants toLowerCase random envs) random s hne h0 h1
    refine ⟨x, hx, ?_⟩
    unfold pickButtonClick
    rw [if_pos (List.length_pos.mpr hne), hd]
  · intro env later hdone
    have hfetch := fetch_emits_one toLowerCase random h0 h1 env later s hdone
    by_cases hne : s.cachedRestaurants ≠ []
    · obtain ⟨x, _, hd⟩ := display_of_draw
        (getLocationAndFetchRestaurants toLowerCase random (env :: later)) random s hne h0 h1
      refine ⟨Or.inl ⟨x, ?_⟩, Or.inl ⟨x, ?_⟩⟩
      · unfold pickButtonClick
        rw [if_pos (List.length_pos.mpr hne), hd]
      · rw [hd]
        rfl
    · have hlen : ¬ s.cachedRestaurants.length > 0 := fun h => hne (List.length_pos.mp h)
      constructor
      · unfold pickButtonClick
        rw [if_neg hlen]
        exact hfetch
      · unfold displayRandomRestaurantFromCache
        rw [if_neg hlen]
        rcases hfetch with ⟨x, hx⟩ | ⟨m, hm⟩
        · exact Or.inl ⟨x, by rw [hx]; rfl⟩
        · exact Or.inr ⟨m, by rw [hm]; rfl⟩
  · intro init last hlast hawait
    have := collectPages_snoc_awaiting init last [] hawait
    rw [hlast] at this
    cases this

/-- Witness of C13: on an empty cache, with the draw 1/2, a fetch answered by one page of
three results shows one restaurant, and a fetch answered by a page without results shows
one error message. -/
theorem pick_emits_exactly_one_witness :
    ((∃ x, (pickButtonClick asciiLower (1 / 2)
          ({ geo := GeoOutcome.position origin,
             search := SearchOutcome.pages [threeResults] } :: [])
          (startup { cachedRestaurants := none, cachedLocation := none }).1).2 =
        [Output.displayRestaurant x]) ∨
      (∃ m, (pickButtonClick asciiLower (1 / 2)
          ({ geo := GeoOutcome.position origin,
             search := SearchOutcome.pages [threeResults] } :: [])
          (startup { cachedRestaurants := none, cachedLocation := none }).1).2 =
        [Output.displayError m])) ∧
    ((∃ x, (pickButtonClick asciiLower (1 / 2)
          ({ geo := GeoOutcome.position origin,
             search := SearchOutcome.pages [emptyPage] } :: [])
          (startup { cachedRestaurants := none, cachedLocation := none }).1).2 =
        [Output.displayRestaurant x]) ∨
      (∃ m, (pickButtonClick asciiLower (1 / 2)
          ({ geo := GeoOutcome.position origin,
             search := SearchOutcome.pages [emptyPage] } :: [])
          (startup { cachedRestaurants := none, cachedLocation := none }).1).2 =
        [Output.displayError m])) :=
  ⟨((pick_emits_exactly_one asciiLower (1 / 2) (by norm_num) (by norm_num)
        (startup { cachedRestaurants := none, cachedLocation := none }).1).2.1
      { geo := GeoOutcome.position origin, search := SearchOutcome.pages [threeResults] } []
      (by
        intro c ps _ hs
        cases hs
        decide)).1,
   ((pick_emits_exactly_one asciiLower (1 / 2) (by norm_num) (by norm_num)
        (startup { cachedRestaurants := none, cachedLocation := none }).1).2.1
      { geo := GeoOutcome.position origin, search := SearchOutcome.pages [emptyPage] } []
      (by
        intro c ps _ hs
        cases hs
        decide)).1⟩

/-- C14: after a page load on an empty store and any number of answered location checks,
a click with a draw in `[0, 1)` whose location succeeds and whose search delivers one page
with status `OK`, no further page and three results of which exactly two have the same
lower-cased name leaves a cached collection of exactly 2 entries, in memory and in the
store, and shows one restaurant, which is one of those 2. -/
theorem end_to_end_duplicate_name (toLowerCase : String → String)
    (checks : List (GeoOutcome ℝ)) (random : ℚ) (h0 : 0 ≤ random) (h1 : random < 1)
    (c : Coordinate ℝ) (a b d : Restaurant) (later : List (FetchEnv ℝ))
    (hpair : toLowerCase a.name = toLowerCase b.name ∨
      toLowerCase a.name = toLowerCase d.name ∨ toLowerCase b.name = toLowerCase d.name)
    (hnot : ¬ (toLowerCase a.name = toLowerCase b.name ∧
      toLowerCase a.name = toLowerCase d.name)) :
    (step toLowerCase calculateDistance SIGNIFICANT_DISTANCE_THRESHOLD
        (run toLowerCase calculateDistance SIGNIFICANT_DISTANCE_THRESHOLD
          { cachedRestaurants := none, cachedLocation := none }
          (checks.map Input.locationCheck))
        (Input.click random
          ({ geo := GeoOutcome.position c,
             search := SearchOutcome.pages
               [{ status := PlacesServiceStatus.OK, results := [a, b, d],
                  hasNextPage := false }] } :: later))).1.cachedRestaurants.length = 2 ∧
    (step toLowerCase calculateDistance SIGNIFICANT_DISTANCE_THRESHOLD
        (run toLowerCase calculateDistance SIGNIFICANT_DISTANCE_THRESHOLD
          { cachedRestaurants := none, cachedLocation := none }
          (checks.map Input.locationCheck))
        (Input.click random
          ({ geo := GeoOutcome.position c,
             search := SearchOutcome.pages
               [{ status := PlacesServiceStatus.OK, results := [a, b, d],
                  hasNextPage := false }] } :: later))).1.localStorage.cachedRestaurants =
      some (step toLowerCase calculateDistance SIGNIFICANT_DISTANCE_THRESHOLD
        (run toLowerCase calculateDistance SIGNIFICANT_DISTANCE_THRESHOLD
          { cachedRestaurants := none, cachedLocation := none }
          (checks.map Input.locationCheck))
        (Input.click random
          ({ geo := GeoOutcome.position c,
             search := SearchOutcome.pages
               [{ status := PlacesServiceStatus.OK, results := [a, b, d],
                  hasNextPage := false }] } :: later))).1.cachedRestaurants ∧
    ∃ x ∈ (step toLowerCase calculateDistance SIGNIFICANT_DISTANCE_THRESHOLD
        (run toLowerCase calculateDistance SIGNIFICANT_DISTANCE_THRESHOLD
          { cachedRestaurants := none, cachedLocation := none }
          (checks.map Input.locationCheck))
        (Input.click random
          ({ geo := GeoOutcome.position c,
             search := SearchOutcome.pages
               [{ status := PlacesServiceStatus.OK, results := [a, b, d],
                  hasNextPage := false }] } :: later))).1.cachedRestaurants,
      (step toLowerCase calculateDistance SIGNIFICANT_DISTANCE_THRESHOLD
        (run toLowerCase calculateDistance SIGNIFICANT_DISTANCE_THRESHOLD
          { cachedRestaurants := none, cachedLocation := none }
          (checks.map Input.locationCheck))
        (Input.click random
          ({ geo := GeoOutcome.position c,
             search := SearchOutcome.pages
               [{ status := PlacesServiceStatus.OK, results := [a, b, d],
                  hasNextPage := false }] } :: later))).2 =
        [Output.displayRestaurant x] := by
  have hempty : (run toLowerCase calculateDistance SIGNIFICANT_DISTANCE_THRESHOLD
      { cachedRestaurants := none, cachedLocation := none }
      (checks.map Input.locationCheck)).cachedRestaurants = [] :=
    checks_keep_empty toLowerCase calculateDistance SIGNIFICANT_DISTANCE_THRESHOLD checks _ rfl
  have hlen : ¬ (run toLowerCase calculateDistance SIGNIFICANT_DISTANCE_THRESHOLD
      { cachedRestaurants := none, cachedLocation := none }
      (checks.map Input.locationCheck)).cachedRestaurants.length > 0 := by
    rw [hempty]
    exact Nat.lt_irrefl 0
  have hfin : collectPages []
      [{ status := PlacesServiceStatus.OK, results := [a, b, d], hasNextPage := false }] =
      PageOutcome.finished [a, b, d] := by
    simp [collectPages]
  obtain ⟨x, hx, hfetch⟩ := fetch_of_finished toLowerCase random h0 h1 c
    (run toLowerCase calculateDistance SIGNIFICANT_DISTANCE_THRESHOLD
      { cachedRestaurants := none, cachedLocation := none } (checks.map Input.locationCheck))
    _ _ hfin
  simp only [step, pickButtonClick, if_neg hlen, hfetch later]
  exact ⟨filterUnique_three toLowerCase a b d hpair hnot, rfl, x, hx, rfl⟩

/-- Witness of C14: the location check of line 14 answered at longitude 0 on the equator,
then a click with the draw 1/2 whose search delivers `Cafe Luna`, `Diner` and
`CAFE LUNA`. -/
theorem end_to_end_duplicate_name_witness :
    (asciiLower cafeLuna.name = asciiLower diner.name ∨
      asciiLower cafeLuna.name = asciiLower cafeLunaCapitals.name ∨
      asciiLower diner.name = asciiLower cafeLunaCapitals.name) ∧
    ¬ (asciiLower cafeLuna.name = asciiLower diner.name ∧
      asciiLower cafeLuna.name = asciiLower cafeLunaCapitals.name) ∧
    (step asciiLower calculateDistance SIGNIFICANT_DISTANCE_THRESHOLD
        (run asciiLower calculateDistance SIGNIFICANT_DISTANCE_THRESHOLD
          { cachedRestaurants := none, cachedLocation := none }
          ([GeoOutcome.position equatorWest].map Input.locationCheck))
        (Input.click (1 / 2)
          ({ geo := GeoOutcome.position equatorWest,
             search := SearchOutcome.pages
               [{ status := PlacesServiceStatus.OK,
                  results := [cafeLuna, diner, cafeLunaCapitals],
                  hasNextPage := false }] } :: []))).1.cachedRestaurants.length = 2 ∧
    ∃ x ∈ (step asciiLower calculateDistance SIGNIFICANT_DISTANCE_THRESHOLD
        (run asciiLower calculateDistance SIGNIFICANT_DISTANCE_THRESHOLD
          { cachedRestaurants := none, cachedLocation := none }
          ([GeoOutcome.position equatorWest].map Input.locationCheck))
        (Input.click (1 / 2)
          ({ geo := GeoOutcome.position equatorWest,
             search := SearchOutcome.pages
               [{ status := PlacesServiceStatus.OK,
                  results := [cafeLuna, diner, cafeLunaCapitals],
                  hasNextPage := false }] } :: []))).1.cachedRestaurants,
      (step asciiLower calculateDistance SIGNIFICANT_DISTANCE_THRESHOLD
        (run asciiLower calculateDistance SIGNIFICANT_DISTANCE_THRESHOLD
          { cachedRestaurants := none, cachedLocation := none }
          ([GeoOutcome.position equatorWest].map Input.locationCheck))
        (Input.click (1 / 2)
          ({ geo := GeoOutcome.position equatorWest,
             search := SearchOutcome.pages
               [{ status := PlacesServiceStatus.OK,
                  results := [cafeLuna, diner, cafeLunaCapitals],
                  hasNextPage := false }] } :: []))).2 = [Output.displayRestaurant x] :=
  ⟨by decide, by decide,
   (end_to_end_duplicate_name asciiLower [GeoOutcome.position equatorWest] (1 / 2)
     (by norm_num) (by norm_num) equatorWest cafeLuna diner cafeLunaCapitals []
     (by decide) (by decide)).1,
   (end_to_end_duplicate_name asciiLower [GeoOutcome.position equatorWest] (1 / 2)
     (by norm_num) (by norm_num) equatorWest cafeLuna diner cafeLunaCapitals []
     (by decide) (by decide)).2.2⟩

/-- C15 as stated fails: the draw `6004799503160661 / 2 ^ 53` is a double of `[0, 1)` and
lies in `[1/3, 2/3)`, the interval claimed for index 1 of 3, yet its product with 3 is
`2 - 2 ^ (-53)`, halfway between two doubles, and rounds to 2: line 113 computes index 2
and line 114 shows the third restaurant, where the exact product gives index 1. -/
theorem randomIndexDouble_outside_interval :
    IsDouble drawBelowTwoThirds ∧ 0 ≤ drawBelowTwoThirds ∧ drawBelowTwoThirds < 1 ∧
    drawBelowTwoThirds ∈ Set.Ico (((1 : ℕ) : ℚ) / (3 : ℕ)) ((((1 : ℕ) : ℚ) + 1) / (3 : ℕ)) ∧
    toDouble (drawBelowTwoThirds * ((3 : ℕ) : ℚ)) = 2 ∧
    randomIndexDouble drawBelowTwoThirds 3 = 2 ∧
    randomIndex drawBelowTwoThirds 3 = 1 ∧
    elementAt sampleState.cachedRestaurants
        (randomIndexDouble drawBelowTwoThirds sampleState.cachedRestaurants.length) =
      sampleState.cachedRestaurants[2]? := by
  refine ⟨drawBelowTwoThirds_isDouble, ?_, ?_, ?_, drawBelowTwoThirds_product,
    drawBelowTwoThirds_index, drawBelowTwoThirds_exact, ?_⟩
  · norm_num [drawBelowTwoThirds]
  · norm_num [drawBelowTwoThirds]
  · simp only [Set.mem_Ico]
    norm_num [drawBelowTwoThirds]
  · have hlen : sampleState.cachedRestaurants.length = 3 := by decide
    rw [hlen, drawBelowTwoThirds_index]
    exact elementAt_natCast sampleState.cachedRestaurants 2

/-- C15 (amended): for a collection of `N` restaurants, `0 < N < 2 ^ 32`, and an index
`i < N`.  With the product taken exactly the draws of `[0, 1)` that give `i` are those of
`[i / N, (i + 1) / N)`, of length `1 / N`.  With the product rounded to a double, as line
113 computes it: a draw of that interval selects `i`, or `i + 1` exactly when the product
rounds up to `i + 1`; a draw that selects `i` lies in
`[i / (N * (1 + 2 ^ (-53))), (i + 1) / N)`; a draw of
`[i / N, (i + 1) / (N * (1 + 2 ^ (-53))))` selects `i`; some double of `[0, 1)`
selects `i`; and every double of `[0, 1)` selects an index from 0 to `N - 1`. -/
theorem randomIndexDouble_preimage (N i : ℕ) (hN : 0 < N) (hN32 : N < 2 ^ 32) (hi : i < N) :
    {r : ℚ | 0 ≤ r ∧ r < 1 ∧ randomIndex r N = (i : ℤ)} =
      Set.Ico ((i : ℚ) / N) (((i : ℚ) + 1) / N) ∧
    ((i : ℚ) + 1) / N - (i : ℚ) / N = 1 / N ∧
    (∀ r : ℚ, r ∈ Set.Ico ((i : ℚ) / N) (((i : ℚ) + 1) / N) →
      (randomIndexDouble r N = (i : ℤ) ∨ randomIndexDouble r N = (i : ℤ) + 1) ∧
      (randomIndexDouble r N = (i : ℤ) + 1 ↔ toDouble (r * N) = (i : ℚ) + 1)) ∧
    (∀ r : ℚ, 0 ≤ r → randomIndexDouble r N = (i : ℤ) →
      (i : ℚ) / (N * (1 + (2 : ℚ) ^ (-53 : ℤ))) ≤ r ∧ r < ((i : ℚ) + 1) / N) ∧
    (∀ r : ℚ, r ∈ Set.Ico ((i : ℚ) / N) (((i : ℚ) + 1) / (N * (1 + (2 : ℚ) ^ (-53 : ℤ)))) →
      randomIndexDouble r N = (i : ℤ)) ∧
    (∃ r : ℚ, IsDouble r ∧ 0 ≤ r ∧ r < 1 ∧ randomIndexDouble r N = (i : ℤ)) ∧
    (∀ r : ℚ, IsDouble r → 0 ≤ r → r < 1 →
      0 ≤ randomIndexDouble r N ∧ randomIndexDouble r N < (N : ℤ)) := by
  refine ⟨(randomIndex_exact_preimage N i hN hi).1, (randomIndex_exact_preimage N i hN hi).2.2.1,
    ?_, ?_, ?_, ?_, fun r hd h0 h1 => randomIndexDouble_bounds r N hN hN32 hd h0 h1⟩
  · intro r hr
    exact indexDouble_of_mem r N i hN hN32 hi (Set.mem_Ico.mp hr)
  · intro r hr hidx
    exact mem_of_indexDouble r N i hN hN32 hi hr hidx
  · intro r hr
    exact indexDouble_of_inner r N i hN hN32 hi (Set.mem_Ico.mp hr).1 (Set.mem_Ico.mp hr).2
  · exact ⟨_, exists_double_draw N i hN hN32 hi⟩

/-- Witness of C15 (amended): three restaurants and the index 1; the draw 1/2 lies in
`[1/3, 2 / (3 * (1 + 2 ^ (-53))))` and selects index 1. -/
theorem randomIndexDouble_preimage_witness :
    (0 : ℕ) < 3 ∧ (3 : ℕ) < 2 ^ 32 ∧ (1 : ℕ) < 3 ∧
    (1 / 2 : ℚ) ∈ Set.Ico (((1 : ℕ) : ℚ) / (3 : ℕ))
      ((((1 : ℕ) : ℚ) + 1) / ((3 : ℕ) * (1 + (2 : ℚ) ^ (-53 : ℤ)))) ∧
    randomIndexDouble (1 / 2) 3 = ((1 : ℕ) : ℤ) :=
  have hmem : (1 / 2 : ℚ) ∈ Set.Ico (((1 : ℕ) : ℚ) / (3 : ℕ))
      ((((1 : ℕ) : ℚ) + 1) / ((3 : ℕ) * (1 + (2 : ℚ) ^ (-53 : ℤ)))) := by
    simp only [Set.mem_Ico]
    norm_num
  ⟨by decide, by norm_num, by decide, hmem,
   (randomIndexDouble_preimage 3 1 (by decide) (by norm_num) (by decide)).2.2.2.2.1 (1 / 2)
     hmem⟩

/-- C16: the deduplication of a non-empty list is non-empty; when the pages reach line 83
the accumulated results and the collection written to the cache are non-empty, so for a
draw in `[0, 1)` the pick of line 89 shows a restaurant of that collection without
calling the `fetch` of its `else` branch, and the fetch cycle gives that result whatever
environments would serve further fetches. -/
theorem success_branch_displays {F : Type} (toLowerCase : String → String) (random : ℚ)
    (h0 : 0 ≤ random) (h1 : random < 1) (c : Coordinate F) (s : State F)
    (pages : List Page) (all : List Restaurant)
    (hfin : collectPages [] pages = PageOutcome.finished all) :
    (∀ xs : List Restaurant, xs ≠ [] → filterUniqueRestaurants toLowerCase xs ≠ []) ∧
    all ≠ [] ∧
    (cacheWritten toLowerCase c all).cachedRestaurants ≠ [] ∧
    ∃ x ∈ (cacheWritten toLowerCase c all).cachedRestaurants,
      (∀ fetch : State F → State F × List Output,
        handlePage toLowerCase c (displayRandomRestaurantFromCache fetch random) s []
            pages =
          (cacheWritten toLowerCase c all, [Output.displayRestaurant x])) ∧
      (∀ later : List (FetchEnv F),
        getLocationAndFetchRestaurants toLowerCase random
            ({ geo := GeoOutcome.position c, search := SearchOutcome.pages pages } :: later)
            s =
          (cacheWritten toLowerCase c all, [Output.displayRestaurant x])) := by
  have hall : all ≠ [] := collectPages_finished_ne_nil pages [] all hfin
  have hne : (cacheWritten toLowerCase c all).cachedRestaurants ≠ [] :=
    cacheWritten_nonempty toLowerCase c hall
  obtain ⟨x, hx, hex⟩ :=
    pick_of_draw (cacheWritten toLowerCase c all).cachedRestaurants random hne h0 h1
  refine ⟨fun xs h => filterUniqueRestaurants_ne_nil toLowerCase h, hall, hne, x, hx, ?_, ?_⟩
  · intro fetch
    rw [handlePage_eq]
    simp only [hfin]
    rw [displayRandom_of_nonempty fetch random _ hne, hex]
  · intro later
    rw [getLocationAndFetchRestaurants_eq]
    simp only [hfin]
    rw [hex]

/-- Witness of C16: one page of three results fetched at `origin` with the draw 1/2; the
`fetch` handed to the pick would empty the cache if it were called. -/
theorem success_branch_displays_witness :
    collectPages [] [threeResults] = PageOutcome.finished (sampleRestaurants 0 3) ∧
    (cacheWritten asciiLower origin (sampleRestaurants 0 3)).cachedRestaurants ≠ [] ∧
    ∃ x ∈ (cacheWritten asciiLower origin (sampleRestaurants 0 3)).cachedRestaurants,
      handlePage asciiLower origin (displayRandomRestaurantFromCache clearCachedData (1 / 2))
          (startup { cachedRestaurants := none, cachedLocation := none }).1 []
          [threeResults] =
        (cacheWritten asciiLower origin (sampleRestaurants 0 3),
         [Output.displayRestaurant x]) :=
  have h := success_branch_displays asciiLower (1 / 2) (by norm_num) (by norm_num) origin
    (startup { cachedRestaurants := none, cachedLocation := none }).1 [threeResults]
    (sampleRestaurants 0 3) (by decide)
  ⟨by decide, h.2.2.1,
   h.2.2.2.elim fun x hx => ⟨x, hx.1, hx.2.1 clearCachedData⟩⟩

/-- C17: in every state reached from a page load by location checks, clicks, delayed
displays, fetch cycles and further page loads, the variables mirror the store: the
restaurants key is absent exactly when `cachedRestaurants` is empty and otherwise holds
that array, the location key holds what `cachedLocation` holds, absent for `null`, and
reading the store back with `getCachedRestaurants` and `getCachedLocation` gives the
variables; every callback keeps this agreement. -/
theorem memory_agrees_with_store (toLowerCase : String → String) (store : Store ℝ)
    (inputs : List (Input ℝ)) :
    Agree (run toLowerCase calculateDistance SIGNIFICANT_DISTANCE_THRESHOLD store inputs) ∧
    ((run toLowerCase calculateDistance SIGNIFICANT_DISTANCE_THRESHOLD store
        inputs).localStorage.cachedRestaurants = none ↔
      (run toLowerCase calculateDistance SIGNIFICANT_DISTANCE_THRESHOLD store
        inputs).cachedRestaurants = []) ∧
    (∀ v, (run toLowerCase calculateDistance SIGNIFICANT_DISTANCE_THRESHOLD store
        inputs).localStorage.cachedRestaurants = some v →
      v = (run toLowerCase calculateDistance SIGNIFICANT_DISTANCE_THRESHOLD store
        inputs).cachedRestaurants) ∧
    (run toLowerCase calculateDistance SIGNIFICANT_DISTANCE_THRESHOLD store
        inputs).localStorage.cachedLocation =
      (run toLowerCase calculateDistance SIGNIFICANT_DISTANCE_THRESHOLD store
        inputs).cachedLocation ∧
    getCachedRestaurants (run toLowerCase calculateDistance SIGNIFICANT_DISTANCE_THRESHOLD
        store inputs).localStorage =
      (run toLowerCase calculateDistance SIGNIFICANT_DISTANCE_THRESHOLD store
        inputs).cachedRestaurants ∧
    getCachedLocation (run toLowerCase calculateDistance SIGNIFICANT_DISTANCE_THRESHOLD
        store inputs).localStorage =
      (run toLowerCase calculateDistance SIGNIFICANT_DISTANCE_THRESHOLD store
        inputs).cachedLocation ∧
    (∀ (s : State ℝ) (input : Input ℝ), Agree s →
      Agree (step toLowerCase calculateDistance SIGNIFICANT_DISTANCE_THRESHOLD s input).1) := by
  have h := agree_run toLowerCase calculateDistance SIGNIFICANT_DISTANCE_THRESHOLD store inputs
  refine ⟨h, agree_none_iff _ h, agree_some _ h, h.2, agree_getCachedRestaurants _ h,
    agree_getCachedLocation _ h, ?_⟩
  intro s input hs
  exact agree_step toLowerCase calculateDistance SIGNIFICANT_DISTANCE_THRESHOLD s hs input

/-- Witness of C17: a state whose variables mirror the store, three restaurants cached at
longitude 0 on the equator, still does after a location check beyond the threshold. -/
theorem memory_agrees_with_store_witness :
    Agree fetchedAtEquator ∧
    Agree (step asciiLower calculateDistance SIGNIFICANT_DISTANCE_THRESHOLD fetchedAtEquator
      (Input.locationCheck (GeoOutcome.position antipode))).1 :=
  have h : Agree fetchedAtEquator := agree_cacheWritten asciiLower equatorWest (by decide)
  ⟨h, (memory_agrees_with_store asciiLower { cachedRestaurants := none, cachedLocation := none }
    []).2.2.2.2.2.2 fetchedAtEquator (Input.locationCheck (GeoOutcome.position antipode)) h⟩

end RestaurantPicker
